import Mathlib

/-!
# librabbitmq/amqp_socket.c

A shallow embedding of `amqp_socket.c`: the frame reader (`wait_frame_inner`),
the frame queue (`amqp_simple_wait_frame`, the parking branch of
`amqp_simple_rpc`), the login handshake (`amqp_login_inner`, `amqp_login`) and
the streaming publish (`amqp_basic_publish`).

Conventions of the embedding

* A C function that takes the connection state returns the new state next to
  its result. Loops (`while (1)`, `goto retry`) are recursions on a fuel
  argument; running out of fuel is the result `Res.out_of_fuel`.
* `amqp_assert` / `assert` failures terminate the process: `Res.abort`.
* The byte stream is a script: the results of the `read` calls still to come
  (`sockfd_in`) and the log of everything written so far (`sockfd_out`).
  A `read` with no scripted result never returns: `Res.blocked`.
* The codec (`amqp_handle_input`, the status of `amqp_send_frame`) and the
  constants of `amqp_framing.h` are not part of this source file; they are
  parameters (`Env`).
* `size_t` is 64 bit, `int` and `uint32_t` are 32 bit; conversions wrap.
-/

namespace AmqpSocket

/-! ## Machine integers -/

/-- Conversion of an unsigned value to `int` (32 bit, two's complement). -/
def to_int (n : Nat) : Int :=
  if n % 2 ^ 32 < 2 ^ 31 then ((n % 2 ^ 32 : Nat) : Int) else ((n % 2 ^ 32 : Nat) : Int) - 2 ^ 32

/-- Conversion of an `int` to `uint32_t`. -/
def to_uint32 (i : Int) : Nat := (i % 2 ^ 32).toNat

/-- Conversion of an `int` to `size_t` (64 bit). -/
def to_size_t (i : Int) : Nat := (i % 2 ^ 64).toNat

/-- Subtraction of `size_t`. -/
def size_t_sub (a b : Nat) : Nat := (a % 2 ^ 64 + 2 ^ 64 - b % 2 ^ 64) % 2 ^ 64

/-- Addition of `size_t`. -/
def size_t_add (a b : Nat) : Nat := (a + b) % 2 ^ 64

/-- Subtraction of `uint32_t`. -/
def uint32_sub (a b : Nat) : Nat := (a % 2 ^ 32 + 2 ^ 32 - b % 2 ^ 32) % 2 ^ 32

/-! ## Results -/

/-- Outcome of running a C function of the file. -/
inductive Res (α : Type) where
  | ret (a : α)
  | abort
  | blocked
  | undefined
  | out_of_fuel
deriving DecidableEq, Repr

/-! ## Data model (amqp.h, amqp_framing.h) -/

/-- Modelled from the spec: the decoded content properties record of a HEADER
frame (`amqp_basic_properties_t`, declared in amqp_framing.h); the flags word
and the property fields it selects. Zero-initialised means all flags clear. -/
structure amqp_basic_properties_t where
  flags : Nat
  fields : List (List Nat)
deriving DecidableEq, Repr

/-- The record a `void *decoded` of a method points to. The method records are
declared in amqp_framing.h; the fields are those amqp_socket.c reads or writes
(and, for START and TUNE, those the spec names). `table` stands for every other
decoded method. -/
inductive Decoded where
  | null
  | connection_start (version_major version_minor : Nat) (mechanisms : List Nat)
  | connection_start_ok (client_properties_num_entries : Nat) (mechanism response locale : List Nat)
  | connection_tune (channel_max frame_max heartbeat : Nat)
  | connection_tune_ok (channel_max frame_max heartbeat : Nat)
  | connection_open (virtual_host capabilities : List Nat) (insist : Nat)
  | channel_open (out_of_band : List Nat)
  | basic_publish (exchange routing_key : List Nat) (mandatory immediate : Nat)
  | table (fields : List (List Nat))
deriving DecidableEq, Repr

/-- The struct amqp_method_t. -/
structure amqp_method_t where
  id : Nat
  decoded : Decoded
deriving DecidableEq, Repr

/-- The payload union of a frame. -/
inductive amqp_payload where
  | method (m : amqp_method_t)
  | properties (class_id : Nat) (body_size : Nat) (decoded : amqp_basic_properties_t)
  | body_fragment (bytes : List Nat)
deriving DecidableEq, Repr

/-- The struct amqp_frame_t. -/
structure amqp_frame_t where
  frame_type : Nat
  channel : Nat
  payload : amqp_payload
deriving DecidableEq, Repr

/-- The member `payload.method` of the union. C gives no meaning to reading it
while another member is stored; the model reads the zero method there.
amqp_socket.c reads it only after `frame_type == AMQP_FRAME_METHOD`. -/
def amqp_payload.as_method : amqp_payload → amqp_method_t
  | amqp_payload.method m => m
  | _ => { id := 0, decoded := Decoded.null }

/-- Modelled from the spec: the result taxonomy of an RPC
(`amqp_response_type_enum` of amqp.h); `AMQP_RESPONSE_NONE` is the zero value
left by `memset`. -/
inductive amqp_response_type_enum where
  | AMQP_RESPONSE_NONE
  | AMQP_RESPONSE_NORMAL
  | AMQP_RESPONSE_LIBRARY_EXCEPTION
  | AMQP_RESPONSE_SERVER_EXCEPTION
deriving DecidableEq, Repr

open amqp_response_type_enum

/-- The struct amqp_rpc_reply_t. -/
structure amqp_rpc_reply_t where
  reply_type : amqp_response_type_enum
  reply : amqp_method_t
  library_errno : Int
deriving DecidableEq, Repr

/-- A record of the frame queue: `amqp_link_t`. `data` is the frame copy the
link points to, `next` the address of the next link in the decoding pool. -/
structure amqp_link_t where
  data : amqp_frame_t
  next : Option Nat
deriving DecidableEq, Repr

/-- Result of one `read` on the socket: `ok bytes` returns `|bytes|` (0 is end
of file) after storing the bytes; `fail e` returns -1 with `errno = e`. -/
inductive ReadEvent where
  | ok (bytes : List Nat)
  | fail (errno : Int)
deriving DecidableEq, Repr

/-- What the client did on the socket: a raw `write`, or a frame handed to
`amqp_send_frame`. -/
inductive Output where
  | raw (bytes : List Nat)
  | frame (f : amqp_frame_t)
deriving DecidableEq, Repr

/-- Constants of amqp_framing.h and errno.h used by amqp_socket.c. -/
structure Constants where
  AMQP_PROTOCOL_VERSION_MAJOR : Nat
  AMQP_PROTOCOL_VERSION_MINOR : Nat
  AMQP_FRAME_METHOD : Nat
  AMQP_FRAME_HEADER : Nat
  AMQP_FRAME_BODY : Nat
  AMQP_CONNECTION_START_METHOD : Nat
  AMQP_CONNECTION_START_OK_METHOD : Nat
  AMQP_CONNECTION_TUNE_METHOD : Nat
  AMQP_CONNECTION_TUNE_OK_METHOD : Nat
  AMQP_CONNECTION_OPEN_METHOD : Nat
  AMQP_CONNECTION_OPEN_OK_METHOD : Nat
  AMQP_CONNECTION_CLOSE_METHOD : Nat
  AMQP_CHANNEL_OPEN_METHOD : Nat
  AMQP_CHANNEL_OPEN_OK_METHOD : Nat
  AMQP_CHANNEL_CLOSE_METHOD : Nat
  AMQP_BASIC_PUBLISH_METHOD : Nat
  AMQP_BASIC_CLASS : Nat
  EPROTOTYPE : Int

/-- The collaborators of amqp_socket.c that live outside it. `κ` is the state
of the decoder. `amqp_handle_input` receives the decoder state, the input slice
and the current content of the out-frame; `send_status` is the value
`amqp_send_frame` returns, given everything written so far and the frame;
`release` is the effect of a pool reset on the decoder; `pool_fill` is the
content of freshly allocated pool bytes; the `indeterminate` values are the
contents of uninitialised locals. -/
structure Env (κ : Type) extends Constants where
  amqp_handle_input : κ → List Nat → amqp_frame_t → Int × amqp_frame_t × κ
  send_status : List Output → amqp_frame_t → Int
  release : κ → κ
  pool_fill : Nat → Nat
  indeterminate_frame : amqp_frame_t
  indeterminate_method : amqp_method_t

/-- The fields of the connection state amqp_socket.c uses, the decoder state,
and the socket script. The capacity of the read buffer
(`sock_inbound_buffer.len`) is the length of `sock_inbound_buffer`. -/
structure amqp_connection_state_t (κ : Type) where
  frame_max : Nat
  sock_inbound_buffer : List Nat
  sock_inbound_offset : Int
  sock_inbound_limit : Int
  decoding_pool : List amqp_link_t
  first_queued_frame : Option Nat
  last_queued_frame : Option Nat
  decoder : κ
  sockfd_in : List ReadEvent
  sockfd_out : List Output
deriving DecidableEq, Repr

/-- Modelled from the spec: HEADER_SIZE of amqp_private.h, the per-frame wire
header, 7 bytes. -/
def HEADER_SIZE : Nat := 7

/-- Modelled from the spec: FOOTER_SIZE of amqp_private.h, the per-frame end
marker, 1 byte. -/
def FOOTER_SIZE : Nat := 1

/-- Modelled from the spec: the SASL method PLAIN of amqp.h, the only one
implemented. -/
def AMQP_SASL_METHOD_PLAIN : Nat := 0

/-! ## C strings and buffers -/

/-- The function strlen: the number of bytes before the first NUL. -/
def strlen (s : List Nat) : Nat := (s.takeWhile (fun b => b != 0)).length

/-- The function memcpy into `dst` at offset `off` of the first `n` bytes of `src`. -/
def memcpy (dst : List Nat) (off : Nat) (src : List Nat) (n : Nat) : List Nat :=
  dst.take off ++ src.take n ++ dst.drop (off + n)

/-- Modelled from the spec: `pool.alloc_bytes(n)` (amqp_pool_alloc_bytes of
amqp_mem.c), a fresh region of `n` bytes with unspecified content. -/
def amqp_pool_alloc_bytes {κ : Type} (env : Env κ) (n : Nat) : List Nat :=
  (List.range n).map env.pool_fill

/-- Modelled from the spec: amqp_cstring_bytes of amqp_api.c, the byte slice of
a C string (without its terminator). -/
def amqp_cstring_bytes (s : List Nat) : List Nat := s.take (strlen s)

/-! ## amqp_socket.c -/

/-- The function amqp_send_header (lines 47-58): the 8-byte protocol header. -/
def amqp_send_header {κ : Type} (env : Env κ) (state : amqp_connection_state_t κ) :
    amqp_connection_state_t κ :=
  { state with sockfd_out := state.sockfd_out ++
      [Output.raw [65, 77, 81, 80, 1, 1,
        env.AMQP_PROTOCOL_VERSION_MAJOR, env.AMQP_PROTOCOL_VERSION_MINOR]] }

/-- The function sasl_method_name (lines 60-67). -/
def sasl_method_name (method : Nat) : Res (List Nat) :=
  if method = AMQP_SASL_METHOD_PLAIN then Res.ret [80, 76, 65, 73, 78]
  else Res.abort

/-- The function sasl_response (lines 69-93). `args` is the va_list: the C
strings still to be fetched by `va_arg`. -/
def sasl_response {κ : Type} (env : Env κ) (method : Nat) (args : List (List Nat)) :
    Res (List Nat) :=
  if method = AMQP_SASL_METHOD_PLAIN then
    match args with
    | username :: password :: _ =>
      let username_len := strlen username
      let password_len := strlen password
      let response := amqp_pool_alloc_bytes env (strlen username + strlen password + 2)
      let response := response.set 0 0
      let response := memcpy response 1 username username_len
      let response := response.set (username_len + 1) 0
      let response := memcpy response (username_len + 2) password password_len
      Res.ret response
    | _ => Res.undefined
  else Res.abort

/-- The function amqp_frames_enqueued (lines 95-97). -/
def amqp_frames_enqueued {κ : Type} (state : amqp_connection_state_t κ) : Bool :=
  state.first_queued_frame != none

/-- The function wait_frame_inner (lines 99-135). One round of the recursion is
one iteration of the inner loop when `offset < limit` (lines 105-119), and
otherwise the read that follows the inner loop (lines 121-133). -/
def wait_frame_inner {κ : Type} (env : Env κ) :
    Nat → amqp_connection_state_t κ → amqp_frame_t →
      Res (Int × amqp_frame_t) × amqp_connection_state_t κ
  | 0, state, _ => (Res.out_of_fuel, state)
  | fuel + 1, state, decoded_frame =>
    if state.sock_inbound_offset < state.sock_inbound_limit then
      let buffer := (state.sock_inbound_buffer.drop state.sock_inbound_offset.toNat).take
        (state.sock_inbound_limit - state.sock_inbound_offset).toNat
      match env.amqp_handle_input state.decoder buffer decoded_frame with
      | (result, decoded_frame, decoder) =>
        let state := { state with decoder := decoder }
        if result < 0 then (Res.ret (result, decoded_frame), state)
        else
          let state := { state with sock_inbound_offset := state.sock_inbound_offset + result }
          if decoded_frame.frame_type != 0 then (Res.ret (1, decoded_frame), state)
          else if result = 0 then (Res.abort, state)
          else wait_frame_inner env fuel state decoded_frame
    else
      match state.sockfd_in with
      | [] => (Res.blocked, state)
      | ReadEvent.fail errno :: rest =>
        (Res.ret (-errno, decoded_frame), { state with sockfd_in := rest })
      | ReadEvent.ok bytes :: rest =>
        let state := { state with
          sockfd_in := rest
          sock_inbound_buffer := bytes ++ state.sock_inbound_buffer.drop bytes.length }
        if bytes.length = 0 then (Res.ret (0, decoded_frame), state)
        else
          let state := { state with
            sock_inbound_limit := (bytes.length : Int)
            sock_inbound_offset := 0 }
          wait_frame_inner env fuel state decoded_frame

/-- One round of the loop of wait_frame_inner: the function returns (`inl`) or
goes round again (`inr`). -/
def wait_frame_step {κ : Type} (env : Env κ) (state : amqp_connection_state_t κ)
    (decoded_frame : amqp_frame_t) :
    (Res (Int × amqp_frame_t) × amqp_connection_state_t κ) ⊕
      (amqp_connection_state_t κ × amqp_frame_t) :=
  if state.sock_inbound_offset < state.sock_inbound_limit then
    let buffer := (state.sock_inbound_buffer.drop state.sock_inbound_offset.toNat).take
      (state.sock_inbound_limit - state.sock_inbound_offset).toNat
    match env.amqp_handle_input state.decoder buffer decoded_frame with
    | (result, decoded_frame, decoder) =>
      let state := { state with decoder := decoder }
      if result < 0 then Sum.inl (Res.ret (result, decoded_frame), state)
      else
        let state := { state with sock_inbound_offset := state.sock_inbound_offset + result }
        if decoded_frame.frame_type != 0 then Sum.inl (Res.ret (1, decoded_frame), state)
        else if result = 0 then Sum.inl (Res.abort, state)
        else Sum.inr (state, decoded_frame)
  else
    match state.sockfd_in with
    | [] => Sum.inl (Res.blocked, state)
    | ReadEvent.fail errno :: rest =>
      Sum.inl (Res.ret (-errno, decoded_frame), { state with sockfd_in := rest })
    | ReadEvent.ok bytes :: rest =>
      let state := { state with
        sockfd_in := rest
        sock_inbound_buffer := bytes ++ state.sock_inbound_buffer.drop bytes.length }
      if bytes.length = 0 then Sum.inl (Res.ret (0, decoded_frame), state)
      else
        let state := { state with
          sock_inbound_limit := (bytes.length : Int)
          sock_inbound_offset := 0 }
        Sum.inr (state, decoded_frame)

/-- The function amqp_simple_wait_frame (lines 137-151). -/
def amqp_simple_wait_frame {κ : Type} (env : Env κ) (fuel : Nat)
    (state : amqp_connection_state_t κ) (decoded_frame : amqp_frame_t) :
    Res (Int × amqp_frame_t) × amqp_connection_state_t κ :=
  match state.first_queued_frame with
  | some first =>
    match state.decoding_pool[first]? with
    | none => (Res.undefined, state)
    | some link =>
      let f := link.data
      let state := { state with first_queued_frame := link.next }
      let state :=
        if state.first_queued_frame = none then { state with last_queued_frame := none }
        else state
      (Res.ret (1, f), state)
  | none => wait_frame_inner env fuel state decoded_frame

/-- The function amqp_simple_wait_method (lines 153-166). The macro
AMQP_CHECK_EOF_RESULT returns the status from the function when it is `<= 0`. -/
def amqp_simple_wait_method {κ : Type} (env : Env κ) (fuel : Nat)
    (state : amqp_connection_state_t κ) (expected_or_zero : Nat) (output : amqp_method_t) :
    Res (Int × amqp_method_t) × amqp_connection_state_t κ :=
  match amqp_simple_wait_frame env fuel state env.indeterminate_frame with
  | (Res.ret (status, frame), state) =>
    if status ≤ 0 then (Res.ret (status, output), state)
    else if frame.frame_type ≠ env.AMQP_FRAME_METHOD then (Res.abort, state)
    else if ¬ (expected_or_zero = 0 ∨ frame.payload.as_method.id = expected_or_zero) then
      (Res.abort, state)
    else (Res.ret (1, frame.payload.as_method), state)
  | (Res.abort, state) => (Res.abort, state)
  | (Res.blocked, state) => (Res.blocked, state)
  | (Res.undefined, state) => (Res.undefined, state)
  | (Res.out_of_fuel, state) => (Res.out_of_fuel, state)

/-- Modelled from the spec: `send_frame(frame)` (amqp_send_frame of
amqp_connection.c) encodes the frame and writes all bytes to the stream,
returning success or a transport error (negative). Every call is logged. -/
def amqp_send_frame {κ : Type} (env : Env κ) (state : amqp_connection_state_t κ)
    (frame : amqp_frame_t) : Int × amqp_connection_state_t κ :=
  (env.send_status state.sockfd_out frame,
    { state with sockfd_out := state.sockfd_out ++ [Output.frame frame] })

/-- The function amqp_send_method (lines 168-180). -/
def amqp_send_method {κ : Type} (env : Env κ) (state : amqp_connection_state_t κ)
    (channel : Nat) (id : Nat) (decoded : Decoded) : Int × amqp_connection_state_t κ :=
  amqp_send_frame env state
    { frame_type := env.AMQP_FRAME_METHOD
      channel := channel
      payload := amqp_payload.method { id := id, decoded := decoded } }

/-- The condition of lines 211-215, without its negation: the frame is the
reply the RPC waits for. -/
def is_rpc_reply {κ : Type} (env : Env κ) (frame : amqp_frame_t) (channel : Nat)
    (expected_reply_id : Nat) : Bool :=
  (frame.frame_type == env.AMQP_FRAME_METHOD) &&
  (frame.channel == channel) &&
  ((frame.payload.as_method.id == expected_reply_id) ||
   (frame.payload.as_method.id == env.AMQP_CONNECTION_CLOSE_METHOD) ||
   (frame.payload.as_method.id == env.AMQP_CHANNEL_CLOSE_METHOD))

/-- The connection state with its queue fields replaced. -/
def set_queue {κ : Type} (state : amqp_connection_state_t κ) (pool : List amqp_link_t)
    (first last : Option Nat) : amqp_connection_state_t κ :=
  { state with decoding_pool := pool, first_queued_frame := first, last_queued_frame := last }

/-- The store `p->next = link` on a link of the decoding pool. -/
def set_next (pool : List amqp_link_t) (p : Nat) (link : Nat) : List amqp_link_t :=
  match pool[p]? with
  | some l => pool.set p { data := l.data, next := some link }
  | none => pool

/-- Lines 217-230 of amqp_simple_rpc: copy the frame into the decoding pool and
link it at the tail of the queue. The new link gets the next free address of
the pool. -/
def enqueue_frame {κ : Type} (state : amqp_connection_state_t κ) (frame : amqp_frame_t) :
    amqp_connection_state_t κ :=
  let link := state.decoding_pool.length
  let pool := state.decoding_pool ++ [{ data := frame, next := none }]
  match state.last_queued_frame with
  | none => set_queue state pool (some link) (some link)
  | some last => set_queue state (set_next pool last link) state.first_queued_frame (some link)

/-- The block of amqp_simple_rpc from the label `retry` on (lines 203-241).
`result` is the zeroed reply. -/
def amqp_simple_rpc_retry {κ : Type} (env : Env κ) :
    Nat → amqp_connection_state_t κ → Nat → Nat → amqp_frame_t →
      Res amqp_rpc_reply_t × amqp_connection_state_t κ
  | 0, state, _, _, _ => (Res.out_of_fuel, state)
  | fuel + 1, state, channel, expected_reply_id, frame =>
    match wait_frame_inner env (fuel + 1) state frame with
    | (Res.ret (status, frame), state) =>
      if status ≤ 0 then
        (Res.ret { reply_type := AMQP_RESPONSE_LIBRARY_EXCEPTION
                   reply := { id := 0, decoded := Decoded.null }
                   library_errno := -status }, state)
      else if ! is_rpc_reply env frame channel expected_reply_id then
        amqp_simple_rpc_retry env fuel (enqueue_frame state frame) channel expected_reply_id frame
      else
        (Res.ret { reply_type :=
                     if frame.payload.as_method.id = expected_reply_id then AMQP_RESPONSE_NORMAL
                     else AMQP_RESPONSE_SERVER_EXCEPTION
                   reply := frame.payload.as_method
                   library_errno := 0 }, state)
    | (Res.abort, state) => (Res.abort, state)
    | (Res.blocked, state) => (Res.blocked, state)
    | (Res.undefined, state) => (Res.undefined, state)
    | (Res.out_of_fuel, state) => (Res.out_of_fuel, state)

/-- The function amqp_simple_rpc (lines 182-242). -/
def amqp_simple_rpc {κ : Type} (env : Env κ) (fuel : Nat) (state : amqp_connection_state_t κ)
    (channel : Nat) (request_id : Nat) (expected_reply_id : Nat)
    (decoded_request_method : Decoded) :
    Res amqp_rpc_reply_t × amqp_connection_state_t κ :=
  match amqp_send_method env state channel request_id decoded_request_method with
  | (status, state) =>
    if status < 0 then
      (Res.ret { reply_type := AMQP_RESPONSE_LIBRARY_EXCEPTION
                 reply := { id := 0, decoded := Decoded.null }
                 library_errno := -status }, state)
    else
      amqp_simple_rpc_retry env fuel state channel expected_reply_id env.indeterminate_frame

/-- Sequencing of two steps on the connection state: a step that did not
return (abort, blocked, undefined, out of fuel) ends the run. -/
def Res.and_then {α β σ : Type} (r : Res α × σ) (k : α → σ → Res β × σ) : Res β × σ :=
  match r with
  | (Res.ret a, s) => k a s
  | (Res.abort, s) => (Res.abort, s)
  | (Res.blocked, s) => (Res.blocked, s)
  | (Res.undefined, s) => (Res.undefined, s)
  | (Res.out_of_fuel, s) => (Res.out_of_fuel, s)

/-- Modelled from the spec: `release_buffers` (amqp_release_buffers of
amqp_connection.c), the unconditional pool reset; it asserts that the frame
queue is empty, then empties the pools. -/
def amqp_release_buffers {κ : Type} (env : Env κ) (state : amqp_connection_state_t κ) :
    Res Unit × amqp_connection_state_t κ :=
  if state.first_queued_frame ≠ none then (Res.abort, state)
  else (Res.ret (), { state with decoding_pool := [], decoder := env.release state.decoder })

/-- Modelled from the spec: `maybe_release_buffers` (amqp_connection.c) resets
the pools only when the queued-frame list is empty. -/
def amqp_maybe_release_buffers {κ : Type} (env : Env κ) (state : amqp_connection_state_t κ) :
    Res Unit × amqp_connection_state_t κ :=
  if state.first_queued_frame = none then amqp_release_buffers env state
  else (Res.ret (), state)

/-- The function amqp_login_inner (lines 244-304). The macro AMQP_CHECK_RESULT
returns the status from the function when it is negative,
AMQP_CHECK_EOF_RESULT when it is `<= 0`. The casts of `method.decoded` are
defined only when the record has the type of the cast. -/
def amqp_login_inner {κ : Type} (env : Env κ) (fuel : Nat) (state : amqp_connection_state_t κ)
    (frame_max : Int) (sasl_method : Nat) (vl : List (List Nat)) :
    Res Int × amqp_connection_state_t κ :=
  let state := amqp_send_header env state
  Res.and_then (amqp_simple_wait_method env fuel state env.AMQP_CONNECTION_START_METHOD
      env.indeterminate_method) fun (status, method) state =>
  if status ≤ 0 then (Res.ret status, state) else
  match method.decoded with
  | Decoded.connection_start version_major version_minor _ =>
    if version_major ≠ env.AMQP_PROTOCOL_VERSION_MAJOR ∨
        version_minor ≠ env.AMQP_PROTOCOL_VERSION_MINOR then
      (Res.ret (-env.EPROTOTYPE), state)
    else
    Res.and_then (sasl_response env sasl_method vl, state) fun response_bytes state =>
    Res.and_then (sasl_method_name sasl_method, state) fun mechanism state =>
    match amqp_send_method env state 0 env.AMQP_CONNECTION_START_OK_METHOD
        (Decoded.connection_start_ok 0 mechanism response_bytes [101, 110, 95, 85, 83]) with
    | (status, state) =>
    if status < 0 then (Res.ret status, state) else
    Res.and_then (amqp_release_buffers env state) fun _ state =>
    Res.and_then (amqp_simple_wait_method env fuel state env.AMQP_CONNECTION_TUNE_METHOD
        method) fun (status, method) state =>
    if status ≤ 0 then (Res.ret status, state) else
    match method.decoded with
    | Decoded.connection_tune _ tune_frame_max _ =>
      let server_frame_max : Nat := tune_frame_max % 2 ^ 32
      let frame_max : Int :=
        if server_frame_max ≠ 0 ∧ server_frame_max < to_uint32 frame_max then
          to_int server_frame_max
        else frame_max
      match amqp_send_method env state 0 env.AMQP_CONNECTION_TUNE_OK_METHOD
          (Decoded.connection_tune_ok 1 (to_uint32 frame_max) 0) with
      | (status, state) =>
      if status < 0 then (Res.ret status, state) else
      Res.and_then (amqp_release_buffers env state) fun _ state =>
      (Res.ret 1, state)
    | _ => (Res.undefined, state)
  | _ => (Res.undefined, state)

/-- The function amqp_login (lines 306-360). The value of amqp_login_inner is
not used (line 317). -/
def amqp_login {κ : Type} (env : Env κ) (fuel : Nat) (state : amqp_connection_state_t κ)
    (vhost : List Nat) (frame_max : Int) (sasl_method : Nat) (vl : List (List Nat)) :
    Res amqp_rpc_reply_t × amqp_connection_state_t κ :=
  Res.and_then (amqp_login_inner env fuel state frame_max sasl_method vl) fun _ state =>
  Res.and_then (amqp_simple_rpc env fuel state 0 env.AMQP_CONNECTION_OPEN_METHOD
      env.AMQP_CONNECTION_OPEN_OK_METHOD
      (Decoded.connection_open (amqp_cstring_bytes vhost) [] 1)) fun result state =>
  if result.reply_type ≠ AMQP_RESPONSE_NORMAL then (Res.ret result, state) else
  Res.and_then (amqp_maybe_release_buffers env state) fun _ state =>
  Res.and_then (amqp_simple_rpc env fuel state 1 env.AMQP_CHANNEL_OPEN_METHOD
      env.AMQP_CHANNEL_OPEN_OK_METHOD (Decoded.channel_open [])) fun result state =>
  if result.reply_type ≠ AMQP_RESPONSE_NORMAL then (Res.ret result, state) else
  Res.and_then (amqp_maybe_release_buffers env state) fun _ state =>
  (Res.ret { reply_type := AMQP_RESPONSE_NORMAL
             reply := { id := 0, decoded := Decoded.null }
             library_errno := 0 }, state)

/-- The BODY loop of amqp_basic_publish (lines 399-417). -/
def amqp_basic_publish_loop {κ : Type} (env : Env κ) :
    Nat → amqp_connection_state_t κ → List Nat → Nat → Nat →
      Res Int × amqp_connection_state_t κ
  | 0, state, _, _, _ => (Res.out_of_fuel, state)
  | fuel + 1, state, body, usable_body_payload_size, body_offset =>
    let remaining : Int := to_int (size_t_sub body.length body_offset)
    if remaining < 0 then (Res.abort, state)
    else if remaining = 0 then (Res.ret 0, state)
    else
      let len : Nat :=
        if to_size_t remaining ≥ usable_body_payload_size then usable_body_payload_size
        else to_size_t remaining
      let f : amqp_frame_t :=
        { frame_type := env.AMQP_FRAME_BODY
          channel := 1
          payload := amqp_payload.body_fragment ((body.drop body_offset).take len) }
      let body_offset := size_t_add body_offset len
      match amqp_send_frame env state f with
      | (status, state) =>
        if status < 0 then (Res.ret status, state)
        else amqp_basic_publish_loop env fuel state body usable_body_payload_size body_offset

/-- The function amqp_basic_publish (lines 362-420). `frame_max` is a u32;
`properties = none` is the NULL pointer. -/
def amqp_basic_publish {κ : Type} (env : Env κ) (fuel : Nat) (state : amqp_connection_state_t κ)
    (exchange routing_key : List Nat) (mandatory immediate : Nat)
    (properties : Option amqp_basic_properties_t) (body : List Nat) :
    Res Int × amqp_connection_state_t κ :=
  let usable_body_payload_size : Nat := uint32_sub state.frame_max (HEADER_SIZE + FOOTER_SIZE)
  match amqp_send_method env state 1 env.AMQP_BASIC_PUBLISH_METHOD
      (Decoded.basic_publish exchange routing_key mandatory immediate) with
  | (status, state) =>
  if status < 0 then (Res.ret status, state) else
  let properties : amqp_basic_properties_t :=
    match properties with
    | none => { flags := 0, fields := [] }
    | some p => p
  let f : amqp_frame_t :=
    { frame_type := env.AMQP_FRAME_HEADER
      channel := 1
      payload := amqp_payload.properties env.AMQP_BASIC_CLASS body.length properties }
  match amqp_send_frame env state f with
  | (status, state) =>
  if status < 0 then (Res.ret status, state) else
  amqp_basic_publish_loop env fuel state body usable_body_payload_size 0

/-! ## Specification-side definitions -/

/-- The fragments the spec prescribes for a body `B` and a usable payload size:
`ceil(|B| / usable)` slices, the i-th being `B[i*usable .. min((i+1)*usable, |B|))`. -/
def body_slices (B : List Nat) (usable : Nat) : List (List Nat) :=
  (List.range ((B.length + usable - 1) / usable)).map fun i =>
    (B.drop (i * usable)).take (min ((i + 1) * usable) B.length - i * usable)

/-- The BODY frame on channel 1 that carries a fragment. -/
def body_frame {κ : Type} (env : Env κ) (bytes : List Nat) : Output :=
  Output.frame
    { frame_type := env.AMQP_FRAME_BODY, channel := 1, payload := amqp_payload.body_fragment bytes }

/-- The METHOD frame BASIC.PUBLISH on channel 1. -/
def publish_method_frame {κ : Type} (env : Env κ) (exchange routing_key : List Nat)
    (mandatory immediate : Nat) : Output :=
  Output.frame
    { frame_type := env.AMQP_FRAME_METHOD
      channel := 1
      payload := amqp_payload.method
        { id := env.AMQP_BASIC_PUBLISH_METHOD
          decoded := Decoded.basic_publish exchange routing_key mandatory immediate } }

/-- The HEADER frame on channel 1 for a body of `body_size` bytes. -/
def publish_header_frame {κ : Type} (env : Env κ) (body_size : Nat)
    (properties : Option amqp_basic_properties_t) : Output :=
  Output.frame
    { frame_type := env.AMQP_FRAME_HEADER
      channel := 1
      payload := amqp_payload.properties env.AMQP_BASIC_CLASS body_size
        (properties.getD { flags := 0, fields := [] }) }

/-- Every send succeeds. -/
def sends_succeed {κ : Type} (env : Env κ) : Prop :=
  ∀ (out : List Output) (f : amqp_frame_t), 0 ≤ env.send_status out f

/-- The connection state after one more frame was handed to amqp_send_frame. -/
def sent {κ : Type} (state : amqp_connection_state_t κ) (f : amqp_frame_t) :
    amqp_connection_state_t κ :=
  { state with sockfd_out := state.sockfd_out ++ [Output.frame f] }

/-- The connection state after amqp_release_buffers emptied the pools. -/
def released {κ : Type} (env : Env κ) (state : amqp_connection_state_t κ) :
    amqp_connection_state_t κ :=
  { state with decoding_pool := [], decoder := env.release state.decoder }

/-- The METHOD frame that amqp_send_method builds, as a frame. -/
def method_request {κ : Type} (env : Env κ) (channel id : Nat) (decoded : Decoded) :
    amqp_frame_t :=
  { frame_type := env.AMQP_FRAME_METHOD
    channel := channel
    payload := amqp_payload.method { id := id, decoded := decoded } }

/-- The BODY frame on channel 1 that carries a fragment, as a frame. -/
def body_fragment_frame {κ : Type} (env : Env κ) (bytes : List Nat) : amqp_frame_t :=
  { frame_type := env.AMQP_FRAME_BODY, channel := 1, payload := amqp_payload.body_fragment bytes }

/-- Every failing read of the script sets a positive `errno`, as POSIX error
numbers are. -/
def errnos_positive (reads : List ReadEvent) : Prop :=
  ∀ (errno : Int), ReadEvent.fail errno ∈ reads → 0 < errno

/-- No frame of the list has the sentinel type 0. -/
def no_sentinel (fs : List amqp_frame_t) : Prop :=
  ∀ f ∈ fs, f.frame_type ≠ 0

/-- The cursor invariant of the spec: `0 <= offset <= limit <= capacity`, the
capacity being the length of the read buffer. -/
def cursor_inv {κ : Type} (state : amqp_connection_state_t κ) : Prop :=
  0 ≤ state.sock_inbound_offset ∧
  state.sock_inbound_offset ≤ state.sock_inbound_limit ∧
  state.sock_inbound_limit ≤ (state.sock_inbound_buffer.length : Int)

/-- The codec never reports consuming more bytes than the slice it was given. -/
def codec_bounded {κ : Type} (env : Env κ) : Prop :=
  ∀ (decoder : κ) (buffer : List Nat) (frame : amqp_frame_t),
    (env.amqp_handle_input decoder buffer frame).1 ≤ (buffer.length : Int)

/-- No read of the script returns more than `capacity` bytes. -/
def reads_bounded (capacity : Nat) (reads : List ReadEvent) : Prop :=
  ∀ (bytes : List Nat), ReadEvent.ok bytes ∈ reads → bytes.length ≤ capacity

/-- The frame queue, read off the links: starting at `p` (with `prev` the link
before it), the links hold the frames `fs` in order, the final link has
`next == NULL`, and `last` points to that final link (to `prev` when there is
no link). From `prev = none` and `p = first_queued_frame` this is the
well-formed queue holding `fs`. -/
def chain (pool : List amqp_link_t) : Option Nat → Option Nat → List amqp_frame_t →
    Option Nat → Bool
  | prev, p, [], last => p == none && last == prev
  | _, some a, f :: fs, last =>
    match pool[a]? with
    | some l => l.data == f && chain pool (some a) l.next fs last
    | none => false
  | _, none, _ :: _, _ => false

/-- The connection's queue is well formed and holds the frames `fs`. -/
def queue_holds {κ : Type} (state : amqp_connection_state_t κ) (fs : List amqp_frame_t) : Prop :=
  chain state.decoding_pool none state.first_queued_frame fs state.last_queued_frame = true

instance {κ : Type} (state : amqp_connection_state_t κ) (fs : List amqp_frame_t) :
    Decidable (queue_holds state fs) := by
  unfold queue_holds
  infer_instance

/-- Queue well-formedness in the words of the spec: if `first_queued_frame` is
null then `last_queued_frame` is null, and when the queue is not empty
`last_queued_frame` is the final record reached from `first_queued_frame`
along the `next` pointers, and its `next` is null. -/
def queue_well_formed {κ : Type} (state : amqp_connection_state_t κ) : Prop :=
  (state.first_queued_frame = none → state.last_queued_frame = none) ∧
  (state.first_queued_frame ≠ none →
    ∃ (fs : List amqp_frame_t) (a : Nat) (l : amqp_link_t),
      chain state.decoding_pool none state.first_queued_frame fs (some a) = true ∧
      state.last_queued_frame = some a ∧
      state.decoding_pool[a]? = some l ∧ l.next = none)

/-- The frames arriving from the reader: successive calls of wait_frame_inner
(each with fuel `fuel`, on the same out-variable) return status 1 with the
frames `fs`, in order, and leave the reader in `state1`. -/
def reads_frames {κ : Type} (env : Env κ) (fuel : Nat) :
    amqp_connection_state_t κ → amqp_frame_t → List amqp_frame_t →
      amqp_connection_state_t κ → Prop
  | state, _, [], state1 => state1 = state
  | state, frame, f :: fs, state1 =>
    ∃ state0, wait_frame_inner env fuel state frame = (Res.ret (1, f), state0) ∧
      reads_frames env fuel state0 f fs state1

/-- The frame the RPC waits for, in the words of the spec: a METHOD on the
requested channel whose id is `expected_reply_id`, CONNECTION.CLOSE or
CHANNEL.CLOSE. -/
def awaited_reply {κ : Type} (env : Env κ) (channel expected_reply_id : Nat)
    (f : amqp_frame_t) : Prop :=
  f.frame_type = env.AMQP_FRAME_METHOD ∧ f.channel = channel ∧
    (f.payload.as_method.id = expected_reply_id ∨
     f.payload.as_method.id = env.AMQP_CONNECTION_CLOSE_METHOD ∨
     f.payload.as_method.id = env.AMQP_CHANNEL_CLOSE_METHOD)

instance {κ : Type} (env : Env κ) (channel expected_reply_id : Nat) (f : amqp_frame_t) :
    Decidable (awaited_reply env channel expected_reply_id f) := by
  unfold awaited_reply
  infer_instance

/-- The reply the spec prescribes when the awaited frame `f` arrives. -/
def reply_of (expected_reply_id : Nat) (f : amqp_frame_t) : amqp_rpc_reply_t :=
  { reply_type :=
      if f.payload.as_method.id = expected_reply_id then AMQP_RESPONSE_NORMAL
      else AMQP_RESPONSE_SERVER_EXCEPTION
    reply := f.payload.as_method
    library_errno := 0 }

/-- The queue fields of two connection states are the same. -/
def same_queue {κ : Type} (s t : amqp_connection_state_t κ) : Prop :=
  s.decoding_pool = t.decoding_pool ∧
  s.first_queued_frame = t.first_queued_frame ∧
  s.last_queued_frame = t.last_queued_frame

/-- The reader part of two connection states is the same: buffer, cursors,
decoder and the reads still to come. -/
def same_reader {κ : Type} (s t : amqp_connection_state_t κ) : Prop :=
  s.sock_inbound_buffer = t.sock_inbound_buffer ∧
  s.sock_inbound_offset = t.sock_inbound_offset ∧
  s.sock_inbound_limit = t.sock_inbound_limit ∧
  s.decoder = t.decoder ∧
  s.sockfd_in = t.sockfd_in

/-- Calls amqp_simple_wait_frame `n` times on the same out-variable and collects
the results. -/
def wait_frames {κ : Type} (env : Env κ) (fuel : Nat) :
    Nat → amqp_connection_state_t κ → amqp_frame_t →
      List (Res (Int × amqp_frame_t)) × amqp_connection_state_t κ
  | 0, state, _ => ([], state)
  | n + 1, state, frame =>
    match amqp_simple_wait_frame env fuel state frame with
    | (Res.ret (status, frame), state) =>
      match wait_frames env fuel n state frame with
      | (rs, state) => (Res.ret (status, frame) :: rs, state)
    | (r, state) => ([r], state)

/-- The method CONNECTION.START announcing the library's protocol version. -/
def start_method {κ : Type} (env : Env κ) (id : Nat) (mechanisms : List Nat) : amqp_method_t :=
  { id := id
    decoded := Decoded.connection_start env.AMQP_PROTOCOL_VERSION_MAJOR
      env.AMQP_PROTOCOL_VERSION_MINOR mechanisms }

/-- The record of CONNECTION.START_OK: no client properties, the mechanism, the
response and the locale "en_US". -/
def start_ok_record (mechanism response : List Nat) : Decoded :=
  Decoded.connection_start_ok 0 mechanism response [101, 110, 95, 85, 83]

/-- The METHOD frame CONNECTION.TUNE_OK on channel 0 with channel_max 1,
heartbeat 0 and the given frame_max. -/
def tune_ok_frame {κ : Type} (env : Env κ) (frame_max : Nat) : Output :=
  Output.frame
    { frame_type := env.AMQP_FRAME_METHOD
      channel := 0
      payload := amqp_payload.method
        { id := env.AMQP_CONNECTION_TUNE_OK_METHOD
          decoded := Decoded.connection_tune_ok 1 frame_max 0 } }

/-- The METHOD frame of a request, as amqp_send_method builds it. -/
def request_frame {κ : Type} (env : Env κ) (channel id : Nat) (decoded : Decoded) : Output :=
  Output.frame
    { frame_type := env.AMQP_FRAME_METHOD
      channel := channel
      payload := amqp_payload.method { id := id, decoded := decoded } }

/-- The frames handed to amqp_send_frame, in order. -/
def sent_frames (out : List Output) : List amqp_frame_t :=
  out.filterMap fun o =>
    match o with
    | Output.frame f => some f
    | Output.raw _ => none

/-- The method ids of the METHOD frames handed to amqp_send_frame, in order. -/
def sent_method_ids {κ : Type} (env : Env κ) (out : List Output) : List Nat :=
  (sent_frames out).filterMap fun f =>
    if f.frame_type = env.AMQP_FRAME_METHOD then some f.payload.as_method.id else none

/-! ## A concrete protocol instance -/

/-- The constants of AMQP 0-8 (amqp_framing.h) and EPROTOTYPE of Linux. -/
def amqp_0_8 : Constants :=
  { AMQP_PROTOCOL_VERSION_MAJOR := 8
    AMQP_PROTOCOL_VERSION_MINOR := 0
    AMQP_FRAME_METHOD := 1
    AMQP_FRAME_HEADER := 2
    AMQP_FRAME_BODY := 3
    AMQP_CONNECTION_START_METHOD := 0x000A000A
    AMQP_CONNECTION_START_OK_METHOD := 0x000A000B
    AMQP_CONNECTION_TUNE_METHOD := 0x000A001E
    AMQP_CONNECTION_TUNE_OK_METHOD := 0x000A001F
    AMQP_CONNECTION_OPEN_METHOD := 0x000A0028
    AMQP_CONNECTION_OPEN_OK_METHOD := 0x000A0029
    AMQP_CONNECTION_CLOSE_METHOD := 0x000A003C
    AMQP_CHANNEL_OPEN_METHOD := 0x0014000A
    AMQP_CHANNEL_OPEN_OK_METHOD := 0x0014000B
    AMQP_CHANNEL_CLOSE_METHOD := 0x00140028
    AMQP_BASIC_PUBLISH_METHOD := 0x003C0028
    AMQP_BASIC_CLASS := 60
    EPROTOTYPE := 91 }

/-- A method frame. -/
def method_frame (channel id : Nat) (decoded : Decoded) : amqp_frame_t :=
  { frame_type := 1, channel := channel, payload := amqp_payload.method { id := id, decoded := decoded } }

/-- The frame with the sentinel type 0. -/
def sentinel_frame : amqp_frame_t :=
  { frame_type := 0, channel := 0, payload := amqp_payload.body_fragment [] }

/-- A toy wire format: each byte is one frame. -/
def toy_frame : Nat → amqp_frame_t
  | 1 => method_frame 0 0x000A000A (Decoded.connection_start 8 0 [80, 76, 65, 73, 78])
  | 2 => method_frame 0 0x000A001E (Decoded.connection_tune 0 65536 0)
  | 3 => method_frame 0 0x000A0029 (Decoded.table [])
  | 4 => method_frame 1 0x0014000B (Decoded.table [])
  | 5 => method_frame 1 0x00140028 (Decoded.table [[404], [78, 79, 84, 95, 70, 79, 85, 78, 68]])
  | 6 => method_frame 1 0x003C003C (Decoded.table [])
  | 7 => method_frame 0 0x000A000A (Decoded.connection_start 9 1 [80, 76, 65, 73, 78])
  | 8 => { frame_type := 8, channel := 0, payload := amqp_payload.body_fragment [] }
  | 9 => method_frame 0 0x000A001E (Decoded.connection_tune 0 0 0)
  | 10 => method_frame 0 0x000A003C (Decoded.table [[403], [68, 69, 78, 73, 69, 68]])
  | _ => sentinel_frame

/-- The decoder of the toy wire format: consumes one byte and yields its frame. -/
def toy_handle_input (_ : Unit) (buffer : List Nat) (_ : amqp_frame_t) :
    Int × amqp_frame_t × Unit :=
  match buffer with
  | [] => (0, sentinel_frame, ())
  | b :: _ => (1, toy_frame b, ())

/-- The toy environment: AMQP 0-8 constants, the toy decoder, and sends that
return `send_status`. -/
def toy_env (send_status : List Output → amqp_frame_t → Int) : Env Unit :=
  { toConstants := amqp_0_8
    amqp_handle_input := toy_handle_input
    send_status := send_status
    release := fun d => d
    pool_fill := fun _ => 170
    indeterminate_frame := sentinel_frame
    indeterminate_method := { id := 0, decoded := Decoded.null } }

/-- The toy environment in which every send succeeds. -/
def ok_env : Env Unit := toy_env fun _ _ => 0

/-- The toy environment in which every send fails with EPIPE. -/
def failing_env : Env Unit := toy_env fun _ _ => -32

/-- The toy environment in which the first frame sent fails with EPIPE (the
8-byte protocol header is already in the log) and every later send succeeds. -/
def first_send_fails_env : Env Unit := toy_env fun out _ => if out.length = 1 then -32 else 0

/-- The credentials "user" and "pw" as C strings. -/
def user_pw : List (List Nat) := [[117, 115, 101, 114, 0], [112, 119, 0]]

/-- A fresh connection with the given `frame_max`, an 8-byte read buffer, an
empty queue and the given script of reads. -/
def fresh_state (frame_max : Nat) (reads : List ReadEvent) : amqp_connection_state_t Unit :=
  { frame_max := frame_max
    sock_inbound_buffer := [0, 0, 0, 0, 0, 0, 0, 0]
    sock_inbound_offset := 0
    sock_inbound_limit := 0
    decoding_pool := []
    first_queued_frame := none
    last_queued_frame := none
    decoder := ()
    sockfd_in := reads
    sockfd_out := [] }

/-! ## Machine integer and slicing lemmas -/

theorem to_int_of_lt (n : Nat) (h : n < 2 ^ 31) : to_int n = (n : Int) := by
  unfold to_int
  have h1 : n % 2 ^ 32 = n := Nat.mod_eq_of_lt (by omega)
  rw [h1, if_pos h]

theorem size_t_sub_of_le (a b : Nat) (hb : b ≤ a) (ha : a < 2 ^ 64) : size_t_sub a b = a - b := by
  unfold size_t_sub
  omega

theorem to_size_t_natCast (n : Nat) (h : n < 2 ^ 64) : to_size_t (n : Int) = n := by
  unfold to_size_t
  omega

theorem size_t_add_of_lt (a b : Nat) (h : a + b < 2 ^ 64) : size_t_add a b = a + b := by
  unfold size_t_add
  omega

theorem body_slices_nil (u : Nat) (hu : 1 ≤ u) : body_slices [] u = [] := by
  unfold body_slices
  have : ([] : List Nat).length + u - 1 = u - 1 := by simp
  rw [this, Nat.div_eq_of_lt (by omega)]
  rfl

theorem body_slices_cons (R : List Nat) (u : Nat) (hu : 1 ≤ u) (hR : 0 < R.length) :
    body_slices R u = R.take (min u R.length) :: body_slices (R.drop (min u R.length)) u := by
  unfold body_slices
  have hcount : (R.length + u - 1) / u =
      ((R.drop (min u R.length)).length + u - 1) / u + 1 := by
    rw [List.length_drop]
    by_cases h : u ≤ R.length
    · rw [Nat.min_eq_left h]
      have : R.length + u - 1 = (R.length - u + u - 1) + u := by omega
      rw [this, Nat.add_div_right _ (by omega)]
    · have h1 : min u R.length = R.length := Nat.min_eq_right (by omega)
      rw [h1, Nat.sub_self]
      have h2 : (0 + u - 1) / u = 0 := Nat.div_eq_of_lt (by omega)
      rw [h2]
      apply Nat.div_eq_of_lt_le <;> omega
  rw [hcount, List.range_succ_eq_map, List.map_cons, List.map_map]
  congr 1
  · simp
  · apply List.map_congr_left
    intro i _
    simp only [Function.comp, List.drop_drop, List.length_drop]
    have e1 : (i + 1) * u = i * u + u := by ring
    have e2 : (i + 1 + 1) * u = i * u + u + u := by ring
    rw [e1, e2]
    generalize i * u = t
    by_cases h : u ≤ R.length
    · rw [Nat.min_eq_left h]
      have a1 : t + u = u + t := by omega
      have a2 : min (t + u + u) R.length - (t + u) = min (t + u) (R.length - u) - t := by omega
      rw [a2, a1]
    · have h1 : min u R.length = R.length := Nat.min_eq_right (by omega)
      rw [h1]
      have d1 : List.drop (t + u) R = [] := List.drop_eq_nil_of_le (by omega)
      have d2 : List.drop (R.length + t) R = [] := List.drop_eq_nil_of_le (by omega)
      rw [d1, d2]; simp


theorem state_out_append_nil {κ : Type} (st : amqp_connection_state_t κ) :
    { st with sockfd_out := st.sockfd_out ++ [] } = st := by
  cases st; simp

/-- The BODY loop from offset `off` sends the slices of the rest of the body. -/
theorem publish_loop_ok {κ : Type} (env : Env κ) (hs : sends_succeed env) (B : List Nat)
    (u : Nat) (hu : 1 ≤ u) (hB : B.length < 2 ^ 31) :
    ∀ (n off : Nat) (st : amqp_connection_state_t κ) (fuel : Nat),
      off ≤ B.length → B.length - off ≤ n → n < fuel →
      amqp_basic_publish_loop env fuel st B u off =
        (Res.ret 0, { st with sockfd_out :=
          st.sockfd_out ++ (body_slices (B.drop off) u).map (body_frame env) }) := by
  intro n
  induction n with
  | zero =>
    intro off st fuel hoff hn hf
    obtain ⟨f, rfl⟩ : ∃ f, fuel = f + 1 := ⟨fuel - 1, by omega⟩
    have hrem : to_int (size_t_sub B.length off) = 0 := by
      rw [size_t_sub_of_le _ _ hoff (by omega), to_int_of_lt _ (by omega)]
      omega
    have hd : B.drop off = [] := List.drop_eq_nil_of_le (by omega)
    simp [amqp_basic_publish_loop, hrem, hd, body_slices_nil u hu, state_out_append_nil]
  | succ n ih =>
    intro off st fuel hoff hn hf
    obtain ⟨f, rfl⟩ : ∃ f, fuel = f + 1 := ⟨fuel - 1, by omega⟩
    have hrem : to_int (size_t_sub B.length off) = ((B.length - off : Nat) : Int) := by
      rw [size_t_sub_of_le _ _ hoff (by omega), to_int_of_lt _ (by omega)]
    by_cases hz : B.length - off = 0
    · have hd : B.drop off = [] := List.drop_eq_nil_of_le (by omega)
      simp [amqp_basic_publish_loop, hrem, hz, hd, body_slices_nil u hu, state_out_append_nil]
    · have hlen : 0 < (B.drop off).length := by rw [List.length_drop]; omega
      have hsz : to_size_t ((B.length - off : Nat) : Int) = B.length - off :=
        to_size_t_natCast _ (by omega)
      have hlen_eq : (if to_size_t ((B.length - off : Nat) : Int) ≥ u then u
          else to_size_t ((B.length - off : Nat) : Int)) = min u (B.drop off).length := by
        rw [hsz, List.length_drop]
        split <;> omega
      have hadd : size_t_add off (min u (B.drop off).length) = off + min u (B.drop off).length := by
        apply size_t_add_of_lt
        rw [List.length_drop]; omega
      have hnn : ¬ (((B.length - off : Nat) : Int) < 0) := by omega
      have hnz : ¬ (((B.length - off : Nat) : Int) = 0) := by omega
      rw [amqp_basic_publish_loop]
      simp only [hrem, hnn, hnz, if_false, hlen_eq, hadd, amqp_send_frame]
      rw [if_neg (not_lt.mpr (hs _ _))]
      rw [ih (off + min u (B.drop off).length) _ f
        (by rw [List.length_drop]; omega) (by rw [List.length_drop]; omega) (by omega)]
      rw [body_slices_cons (B.drop off) u hu hlen]
      simp [List.drop_drop, body_frame, Nat.add_comm]

theorem uint32_sub_of_le (a b : Nat) (hb : b ≤ a) (ha : a < 2 ^ 32) : uint32_sub a b = a - b := by
  unfold uint32_sub
  omega

theorem publish_ok {κ : Type} (env : Env κ) (st : amqp_connection_state_t κ)
    (exchange routing_key : List Nat) (mandatory immediate : Nat)
    (properties : Option amqp_basic_properties_t) (B : List Nat)
    (hB : B.length < 2 ^ 31) (hmax : st.frame_max < 2 ^ 32) (husable : 1 ≤ st.frame_max - 8)
    (hs : sends_succeed env) (fuel : Nat) (hfuel : B.length < fuel) :
    amqp_basic_publish env fuel st exchange routing_key mandatory immediate properties B =
      (Res.ret 0, { st with sockfd_out := st.sockfd_out ++
        [publish_method_frame env exchange routing_key mandatory immediate,
         publish_header_frame env B.length properties] ++
        (body_slices B (st.frame_max - 8)).map (body_frame env) }) := by
  have hu : uint32_sub st.frame_max (HEADER_SIZE + FOOTER_SIZE) = st.frame_max - 8 :=
    uint32_sub_of_le _ _ (by simp [HEADER_SIZE, FOOTER_SIZE]; omega) hmax
  unfold amqp_basic_publish
  simp only [hu, amqp_send_method, amqp_send_frame]
  rw [if_neg (not_lt.mpr (hs _ _)), if_neg (not_lt.mpr (hs _ _))]
  rw [publish_loop_ok env hs B (st.frame_max - 8) husable hB B.length 0 _ fuel
    (by omega) (by omega) hfuel]
  cases properties <;>
    simp [publish_method_frame, publish_header_frame]

theorem body_slices_join (u : Nat) (hu : 1 ≤ u) :
    ∀ (n : Nat) (R : List Nat), R.length ≤ n → (body_slices R u).flatten = R := by
  intro n
  induction n with
  | zero =>
    intro R hR
    have : R = [] := List.length_eq_zero.mp (by omega)
    subst this
    rw [body_slices_nil u hu]; rfl
  | succ n ih =>
    intro R hR
    by_cases h0 : R.length = 0
    · have : R = [] := List.length_eq_zero.mp h0
      subst this
      rw [body_slices_nil u hu]; rfl
    · rw [body_slices_cons R u hu (by omega), List.flatten_cons,
        ih _ (by rw [List.length_drop]; omega), List.take_append_drop]

theorem body_slices_length_le (u : Nat) (hu : 1 ≤ u) :
    ∀ (n : Nat) (R : List Nat), R.length ≤ n → ∀ f ∈ body_slices R u, f.length ≤ u := by
  intro n
  induction n with
  | zero =>
    intro R hR f hf
    have : R = [] := List.length_eq_zero.mp (by omega)
    subst this
    rw [body_slices_nil u hu] at hf
    cases hf
  | succ n ih =>
    intro R hR f hf
    by_cases h0 : R.length = 0
    · have : R = [] := List.length_eq_zero.mp h0
      subst this
      rw [body_slices_nil u hu] at hf
      cases hf
    · rw [body_slices_cons R u hu (by omega)] at hf
      rcases List.mem_cons.mp hf with h | h
      · subst h
        rw [List.length_take]; omega
      · exact ih _ (by rw [List.length_drop]; omega) f h

theorem body_slices_front_full (u : Nat) (hu : 1 ≤ u) :
    ∀ (n : Nat) (R : List Nat), R.length ≤ n →
      ∀ (front : List (List Nat)) (last : List Nat), body_slices R u = front ++ [last] →
        ∀ f ∈ front, f.length = u := by
  intro n
  induction n with
  | zero =>
    intro R hR front last h
    have : R = [] := List.length_eq_zero.mp (by omega)
    subst this
    rw [body_slices_nil u hu] at h
    simp at h
  | succ n ih =>
    intro R hR front last h f hf
    by_cases h0 : R.length = 0
    · have : R = [] := List.length_eq_zero.mp h0
      subst this
      rw [body_slices_nil u hu] at h
      simp at h
    · rw [body_slices_cons R u hu (by omega)] at h
      cases front with
      | nil => cases hf
      | cons x front' =>
        rw [List.cons_append] at h
        injection h with hx htl
        rcases List.mem_cons.mp hf with h1 | h1
        · subst h1
          rw [← hx, List.length_take]
          by_cases hle : u ≤ R.length
          · omega
          · exfalso
            have hd : R.drop (min u R.length) = [] := List.drop_eq_nil_of_le (by omega)
            rw [hd, body_slices_nil u hu] at htl
            simp at htl
        · exact ih _ (by rw [List.length_drop]; omega) front' last htl f h1

/-- With a usable payload size of 0 the BODY loop never ends. -/
theorem publish_loop_stuck {κ : Type} (env : Env κ) (hs : sends_succeed env) (B : List Nat)
    (hB : B.length < 2 ^ 31) (off : Nat) (hoff : off < B.length) :
    ∀ (fuel : Nat) (st : amqp_connection_state_t κ),
      (amqp_basic_publish_loop env fuel st B 0 off).1 = Res.out_of_fuel := by
  intro fuel
  induction fuel with
  | zero => intro st; rfl
  | succ f ih =>
    intro st
    have hrem : to_int (size_t_sub B.length off) = ((B.length - off : Nat) : Int) := by
      rw [size_t_sub_of_le _ _ (by omega) (by omega), to_int_of_lt _ (by omega)]
    have hnn : ¬ (((B.length - off : Nat) : Int) < 0) := by omega
    have hnz : ¬ (((B.length - off : Nat) : Int) = 0) := by omega
    have hadd : size_t_add off 0 = off := by unfold size_t_add; omega
    rw [amqp_basic_publish_loop]
    simp only [hrem, hnn, hnz, if_false, amqp_send_frame, ge_iff_le, Nat.zero_le, if_true, hadd]
    rw [if_neg (not_lt.mpr (hs _ _))]
    exact ih _

theorem ok_env_sends_succeed : sends_succeed ok_env := by
  intro out f
  exact le_refl 0

theorem body_slices_250_92 :
    (body_slices (List.replicate 250 7) (100 - 8)).map List.length = [92, 92, 66] := by
  unfold body_slices
  rw [List.length_replicate]
  have h : List.range ((250 + (100 - 8) - 1) / (100 - 8)) = [0, 1, 2] := by decide
  rw [h]
  simp only [List.map, List.length_take, List.length_drop, List.length_replicate]
  decide

/-- C2: for every body B with |B| < 2^31 and every u32 frame_max with
usable = frame_max - 8 >= 1, when every send succeeds amqp_basic_publish (with
fuel above |B|) returns 0 and has emitted exactly, all on channel 1: the METHOD
frame BASIC.PUBLISH with exchange, routing_key, mandatory and immediate, the
HEADER frame with class_id = BASIC_CLASS and body_size = |B|, then the
ceil(|B| / usable) BODY frames of `body_slices`, the i-th carrying
B[i*usable .. min((i+1)*usable, |B|)). -/
theorem basic_publish_frame_sequence {κ : Type} (env : Env κ) (st : amqp_connection_state_t κ)
    (exchange routing_key : List Nat) (mandatory immediate : Nat)
    (properties : Option amqp_basic_properties_t) (B : List Nat)
    (hB : B.length < 2 ^ 31) (hmax : st.frame_max < 2 ^ 32) (husable : 1 ≤ st.frame_max - 8)
    (hs : sends_succeed env) :
    ∀ fuel, B.length < fuel →
      amqp_basic_publish env fuel st exchange routing_key mandatory immediate properties B =
        (Res.ret 0, { st with sockfd_out := st.sockfd_out ++
          [publish_method_frame env exchange routing_key mandatory immediate,
           publish_header_frame env B.length properties] ++
          (body_slices B (st.frame_max - 8)).map (body_frame env) }) :=
  fun fuel hfuel =>
    publish_ok env st exchange routing_key mandatory immediate properties B hB hmax husable hs
      fuel hfuel

/-- Witness of C2: frame_max = 100 and a body of 250 bytes give the METHOD frame,
the HEADER frame and BODY fragments of lengths 92, 92 and 66. -/
theorem basic_publish_frame_sequence_witness :
    ((body_slices (List.replicate 250 7) (100 - 8)).map List.length = [92, 92, 66]) ∧
    (∀ fuel, (List.replicate 250 7).length < fuel →
      amqp_basic_publish ok_env fuel (fresh_state 100 []) [1] [2] 0 0 none (List.replicate 250 7) =
        (Res.ret 0, { (fresh_state 100 []) with sockfd_out := (fresh_state 100 []).sockfd_out ++
          [publish_method_frame ok_env [1] [2] 0 0,
           publish_header_frame ok_env (List.replicate 250 7).length none] ++
          (body_slices (List.replicate 250 7) ((fresh_state 100 []).frame_max - 8)).map (body_frame ok_env) })) :=
  ⟨body_slices_250_92,
   basic_publish_frame_sequence ok_env (fresh_state 100 []) [1] [2] 0 0 none (List.replicate 250 7)
    (by rw [List.length_replicate]; norm_num) (by decide) (by decide) ok_env_sends_succeed⟩

/-! ## The frame reader -/

theorem wait_frame_inner_succ {κ : Type} (env : Env κ) (fuel : Nat)
    (st : amqp_connection_state_t κ) (fr : amqp_frame_t) :
    wait_frame_inner env (fuel + 1) st fr =
      match wait_frame_step env st fr with
      | Sum.inl r => r
      | Sum.inr (st1, fr1) => wait_frame_inner env fuel st1 fr1 := by
  rw [wait_frame_inner]
  unfold wait_frame_step
  by_cases hlt : st.sock_inbound_offset < st.sock_inbound_limit
  · rw [if_pos hlt, if_pos hlt]
    dsimp only
    split_ifs <;> rfl
  · rw [if_neg hlt, if_neg hlt]
    cases st.sockfd_in with
    | nil => rfl
    | cons ev rest =>
      cases ev with
      | fail errno => rfl
      | ok bytes =>
        dsimp only
        split_ifs <;> rfl

theorem wait_frame_step_set_queue {κ : Type} (env : Env κ) (pool : List amqp_link_t)
    (first last : Option Nat) (st : amqp_connection_state_t κ) (fr : amqp_frame_t) :
    wait_frame_step env (set_queue st pool first last) fr =
      match wait_frame_step env st fr with
      | Sum.inl (r, st1) => Sum.inl (r, set_queue st1 pool first last)
      | Sum.inr (st1, fr1) => Sum.inr (set_queue st1 pool first last, fr1) := by
  unfold wait_frame_step
  have hb : (set_queue st pool first last).sock_inbound_buffer = st.sock_inbound_buffer := rfl
  have ho : (set_queue st pool first last).sock_inbound_offset = st.sock_inbound_offset := rfl
  have hl : (set_queue st pool first last).sock_inbound_limit = st.sock_inbound_limit := rfl
  have hd : (set_queue st pool first last).decoder = st.decoder := rfl
  have hi : (set_queue st pool first last).sockfd_in = st.sockfd_in := rfl
  rw [hb, ho, hl, hd, hi]
  by_cases hlt : st.sock_inbound_offset < st.sock_inbound_limit
  · rw [if_pos hlt, if_pos hlt]
    dsimp only
    split_ifs <;> rfl
  · rw [if_neg hlt, if_neg hlt]
    cases st.sockfd_in with
    | nil => rfl
    | cons ev rest =>
      cases ev with
      | fail errno => rfl
      | ok bytes =>
        dsimp only
        split_ifs <;> rfl

theorem wait_frame_inner_zero {κ : Type} (env : Env κ)
    (st : amqp_connection_state_t κ) (fr : amqp_frame_t) :
    wait_frame_inner env 0 st fr = (Res.out_of_fuel, st) := rfl

/-- A result other than out-of-fuel does not change with more fuel. -/
theorem wait_frame_inner_fuel_mono {κ : Type} (env : Env κ) :
    ∀ (fuel : Nat) (st : amqp_connection_state_t κ) (fr : amqp_frame_t)
      (r : Res (Int × amqp_frame_t)) (st1 : amqp_connection_state_t κ),
      wait_frame_inner env fuel st fr = (r, st1) → r ≠ Res.out_of_fuel →
      ∀ k, wait_frame_inner env (fuel + k) st fr = (r, st1) := by
  intro fuel
  induction fuel with
  | zero =>
    intro st fr r st1 h hr
    rw [wait_frame_inner_zero] at h
    injection h with h1 h2
    exact absurd h1.symm hr
  | succ f ih =>
    intro st fr r st1 h hr k
    have e : f + 1 + k = (f + k) + 1 := by omega
    rw [e]
    rw [wait_frame_inner_succ] at h ⊢
    cases hs : wait_frame_step env st fr with
    | inl res => rw [hs] at h; exact h
    | inr p =>
      obtain ⟨st2, fr2⟩ := p
      rw [hs] at h
      exact ih _ _ _ _ h hr k

/-- The frame reader neither reads nor writes the queue fields. -/
theorem wait_frame_inner_set_queue {κ : Type} (env : Env κ) (pool : List amqp_link_t)
    (first last : Option Nat) :
    ∀ (fuel : Nat) (st : amqp_connection_state_t κ) (fr : amqp_frame_t),
      wait_frame_inner env fuel (set_queue st pool first last) fr =
        ((wait_frame_inner env fuel st fr).1,
          set_queue (wait_frame_inner env fuel st fr).2 pool first last) := by
  intro fuel
  induction fuel with
  | zero => intro st fr; rfl
  | succ f ih =>
    intro st fr
    rw [wait_frame_inner_succ, wait_frame_inner_succ, wait_frame_step_set_queue]
    cases hs : wait_frame_step env st fr with
    | inl res => rfl
    | inr p =>
      obtain ⟨st2, fr2⟩ := p
      exact ih _ _

/-! ## The synchronous RPC -/

theorem set_queue_self {κ : Type} (st : amqp_connection_state_t κ) :
    set_queue st st.decoding_pool st.first_queued_frame st.last_queued_frame = st := by
  cases st; rfl

theorem set_queue_set_queue {κ : Type} (st : amqp_connection_state_t κ)
    (p p1 : List amqp_link_t) (a b a1 b1 : Option Nat) :
    set_queue (set_queue st p a b) p1 a1 b1 = set_queue st p1 a1 b1 := rfl

theorem wait_frame_inner_same_queue {κ : Type} (env : Env κ) (fuel : Nat)
    (st : amqp_connection_state_t κ) (fr : amqp_frame_t) :
    same_queue (wait_frame_inner env fuel st fr).2 st := by
  have h := wait_frame_inner_set_queue env st.decoding_pool st.first_queued_frame
    st.last_queued_frame fuel st fr
  rw [set_queue_self] at h
  have h2 := congrArg Prod.snd h
  simp only at h2
  refine ⟨?_, ?_, ?_⟩
  · rw [h2]; rfl
  · rw [h2]; rfl
  · rw [h2]; rfl

theorem enqueue_frame_eq_set_queue {κ : Type} (st : amqp_connection_state_t κ)
    (f : amqp_frame_t) :
    enqueue_frame st f = set_queue st (enqueue_frame st f).decoding_pool
      (enqueue_frame st f).first_queued_frame (enqueue_frame st f).last_queued_frame := by
  unfold enqueue_frame
  cases st.last_queued_frame with
  | none => rfl
  | some last => rfl

theorem enqueue_frame_congr {κ : Type} (s t : amqp_connection_state_t κ) (f : amqp_frame_t)
    (h : same_queue s t) : same_queue (enqueue_frame s f) (enqueue_frame t f) := by
  obtain ⟨h1, h2, h3⟩ := h
  unfold enqueue_frame
  rw [h1, h2, h3]
  cases t.last_queued_frame with
  | none => exact ⟨rfl, rfl, rfl⟩
  | some last => exact ⟨rfl, rfl, rfl⟩

theorem reads_frames_set_queue {κ : Type} (env : Env κ) (fuel : Nat) (pool : List amqp_link_t)
    (first last : Option Nat) :
    ∀ (fs : List amqp_frame_t) (st : amqp_connection_state_t κ) (fr : amqp_frame_t)
      (t1 : amqp_connection_state_t κ),
      reads_frames env fuel st fr fs t1 →
      reads_frames env fuel (set_queue st pool first last) fr fs (set_queue t1 pool first last) := by
  intro fs
  induction fs with
  | nil =>
    intro st fr t1 h
    simp only [reads_frames] at h ⊢
    rw [h]
  | cons f fs ih =>
    intro st fr t1 h
    simp only [reads_frames] at h ⊢
    obtain ⟨st0, h1, h2⟩ := h
    refine ⟨set_queue st0 pool first last, ?_, ih _ _ _ h2⟩
    rw [wait_frame_inner_set_queue, h1]

theorem is_rpc_reply_iff {κ : Type} (env : Env κ) (f : amqp_frame_t) (channel expected : Nat) :
    is_rpc_reply env f channel expected = true ↔ awaited_reply env channel expected f := by
  simp [is_rpc_reply, awaited_reply, and_assoc, or_assoc]

theorem reads_frames_fuel_pos {κ : Type} (env : Env κ) (fuel : Nat)
    (st : amqp_connection_state_t κ) (fr f : amqp_frame_t) (fs : List amqp_frame_t)
    (t1 : amqp_connection_state_t κ) (h : reads_frames env fuel st fr (f :: fs) t1) :
    1 ≤ fuel := by
  cases fuel with
  | zero =>
    simp only [reads_frames, wait_frame_inner_zero] at h
    obtain ⟨st0, h1, _⟩ := h
    injection h1 with h1 _
    cases h1
  | succ n => omega

/-- The retry loop parks the frames `fs` and returns at `reply`. -/
theorem rpc_retry_run {κ : Type} (env : Env κ) (channel expected : Nat) (reply : amqp_frame_t)
    (f0 : Nat) (hreply : awaited_reply env channel expected reply) :
    ∀ (fs : List amqp_frame_t) (st q : amqp_connection_state_t κ) (fr : amqp_frame_t)
      (t1 : amqp_connection_state_t κ),
      same_queue st q →
      reads_frames env f0 st fr (fs ++ [reply]) t1 →
      (∀ f ∈ fs, ¬ awaited_reply env channel expected f) →
      ∀ fuel, f0 + fs.length ≤ fuel →
        amqp_simple_rpc_retry env fuel st channel expected fr =
          (Res.ret (reply_of expected reply),
            set_queue t1 (fs.foldl enqueue_frame q).decoding_pool
              (fs.foldl enqueue_frame q).first_queued_frame
              (fs.foldl enqueue_frame q).last_queued_frame) := by
  intro fs
  induction fs with
  | nil =>
    intro st q fr t1 hq hr _ fuel hfuel
    have hpos := reads_frames_fuel_pos env f0 st fr reply [] t1 hr
    simp only [List.nil_append, reads_frames] at hr
    obtain ⟨st0, hw, ht⟩ := hr
    subst ht
    obtain ⟨n, rfl⟩ : ∃ n, fuel = n + 1 := ⟨fuel - 1, by simp at hfuel; omega⟩
    have hw2 := wait_frame_inner_fuel_mono env f0 st fr _ _ hw (by simp) (n + 1 - f0)
    have e : f0 + (n + 1 - f0) = n + 1 := by simp at hfuel; omega
    rw [e] at hw2
    rw [amqp_simple_rpc_retry, hw2]
    have hsq := wait_frame_inner_same_queue env (n + 1) st fr
    rw [hw2] at hsq
    have hrep : is_rpc_reply env reply channel expected = true :=
      (is_rpc_reply_iff env reply channel expected).mpr hreply
    simp only [hrep, List.foldl_nil, reply_of]
    obtain ⟨h1, h2, h3⟩ := hq
    obtain ⟨g1, g2, g3⟩ := hsq
    simp only at g1 g2 g3
    rw [← h1, ← h2, ← h3, ← g1, ← g2, ← g3, set_queue_self]
    simp
  | cons f fs ih =>
    intro st q fr t1 hq hr hpark fuel hfuel
    have hpos := reads_frames_fuel_pos env f0 st fr f (fs ++ [reply]) t1 hr
    simp only [List.cons_append, reads_frames] at hr
    obtain ⟨st0, hw, hrest⟩ := hr
    obtain ⟨n, rfl⟩ : ∃ n, fuel = n + 1 := ⟨fuel - 1, by simp at hfuel; omega⟩
    have hw2 := wait_frame_inner_fuel_mono env f0 st fr _ _ hw (by simp) (n + 1 - f0)
    have e : f0 + (n + 1 - f0) = n + 1 := by simp at hfuel; omega
    rw [e] at hw2
    rw [amqp_simple_rpc_retry, hw2]
    have hsq := wait_frame_inner_same_queue env (n + 1) st fr
    rw [hw2] at hsq
    simp only at hsq
    have hnot : is_rpc_reply env f channel expected = false := by
      have := hpark f (List.mem_cons_self _ _)
      rw [← is_rpc_reply_iff] at this
      simpa using this
    simp only [hnot]
    have hq2 : same_queue (enqueue_frame st0 f) (enqueue_frame q f) :=
      enqueue_frame_congr _ _ f ⟨hsq.1.trans hq.1, hsq.2.1.trans hq.2.1, hsq.2.2.trans hq.2.2⟩
    have hrest2 := reads_frames_set_queue env f0 (enqueue_frame st0 f).decoding_pool
      (enqueue_frame st0 f).first_queued_frame (enqueue_frame st0 f).last_queued_frame
      _ _ _ _ hrest
    rw [← enqueue_frame_eq_set_queue] at hrest2
    have := ih (enqueue_frame st0 f) (enqueue_frame q f) f _ hq2 hrest2
      (fun g hg => hpark g (List.mem_cons_of_mem _ hg)) n (by simp at hfuel; omega)
    simp only [List.foldl_cons, set_queue_set_queue] at this ⊢
    simpa using this

/-! ## The frame queue -/

theorem chain_nil (pool : List amqp_link_t) (prev p last : Option Nat) :
    chain pool prev p [] last = true ↔ p = none ∧ last = prev := by
  simp [chain]

theorem chain_cons (pool : List amqp_link_t) (prev p last : Option Nat) (f : amqp_frame_t)
    (fs : List amqp_frame_t) :
    chain pool prev p (f :: fs) last = true ↔
      ∃ a l, p = some a ∧ pool[a]? = some l ∧ l.data = f ∧
        chain pool (some a) l.next fs last = true := by
  cases p with
  | none => simp [chain]
  | some a =>
    cases h : pool[a]? with
    | none => simp [chain, h]
    | some l => simp [chain, h]

/-- The final link of a non-empty chain is `last` and has `next == NULL`. -/
theorem chain_last (pool : List amqp_link_t) :
    ∀ (fs : List amqp_frame_t) (prev p last : Option Nat) (f : amqp_frame_t),
      chain pool prev p (f :: fs) last = true →
      ∃ a l, last = some a ∧ pool[a]? = some l ∧ l.next = none := by
  intro fs
  induction fs with
  | nil =>
    intro prev p last f h
    obtain ⟨a, l, _, hl, _, hc⟩ := (chain_cons _ _ _ _ _ _).mp h
    obtain ⟨hn, hlast⟩ := (chain_nil _ _ _ _).mp hc
    exact ⟨a, l, hlast, hl, hn⟩
  | cons g fs ih =>
    intro prev p last f h
    obtain ⟨a, l, _, _, _, hc⟩ := (chain_cons _ _ _ _ _ _).mp h
    exact ih _ _ _ _ hc

theorem set_next_get_ne (pool : List amqp_link_t) (p link a : Nat) (h : a ≠ p) :
    (set_next pool p link)[a]? = pool[a]? := by
  unfold set_next
  cases hp : pool[p]? with
  | none => rfl
  | some l =>
    rw [List.getElem?_set_ne (Ne.symm h)]

theorem set_next_get_eq (pool : List amqp_link_t) (p link : Nat) (l : amqp_link_t)
    (h : pool[p]? = some l) :
    (set_next pool p link)[p]? = some { data := l.data, next := some link } := by
  unfold set_next
  rw [h]
  have hlt : p < pool.length := by
    by_contra hc
    rw [List.getElem?_eq_none (by omega)] at h
    cases h
  rw [List.getElem?_set_self]
  simp [hlt]

theorem append_get_of_some (pool : List amqp_link_t) (c : amqp_link_t) (a : Nat) (l : amqp_link_t)
    (h : pool[a]? = some l) : (pool ++ [c])[a]? = some l := by
  have hlt : a < pool.length := by
    by_contra hc
    rw [List.getElem?_eq_none (by omega)] at h
    cases h
  rw [List.getElem?_append_left hlt]
  exact h

theorem lt_length_of_get_some (pool : List amqp_link_t) (a : Nat) (l : amqp_link_t)
    (h : pool[a]? = some l) : a < pool.length := by
  by_contra hc
  rw [List.getElem?_eq_none (by omega)] at h
  cases h

/-- Appending a frame to a non-empty chain whose final link is `z`. -/
theorem chain_enqueue_cons (pool : List amqp_link_t) (x : amqp_frame_t) (z : Nat) :
    ∀ (fs : List amqp_frame_t) (prev p : Option Nat) (f : amqp_frame_t),
      chain pool prev p (f :: fs) (some z) = true →
      chain (set_next (pool ++ [{ data := x, next := none }]) z pool.length) prev p
        (f :: fs ++ [x]) (some pool.length) = true := by
  intro fs
  induction fs with
  | nil =>
    intro prev p f h
    obtain ⟨a, l, hp, hl, hd, hc⟩ := (chain_cons _ _ _ _ _ _).mp h
    obtain ⟨hn, hlast⟩ := (chain_nil _ _ _ _).mp hc
    have hza : z = a := by injection hlast
    subst hza
    have hlt := lt_length_of_get_some _ _ _ hl
    rw [List.cons_append, List.nil_append, chain_cons]
    refine ⟨z, _, hp, set_next_get_eq _ _ _ _ (append_get_of_some _ _ _ _ hl), hd, ?_⟩
    rw [chain_cons]
    refine ⟨pool.length, { data := x, next := none }, rfl, ?_, rfl, ?_⟩
    · rw [set_next_get_ne _ _ _ _ (by omega)]
      simp
    · rw [chain_nil]
      exact ⟨rfl, rfl⟩
  | cons g fs ih =>
    intro prev p f h
    obtain ⟨a, l, hp, hl, hd, hc⟩ := (chain_cons _ _ _ _ _ _).mp h
    obtain ⟨b, lb, hz, hlb, hnb⟩ := chain_last pool fs (some a) l.next (some z) g hc
    have hzb : z = b := by injection hz
    subst hzb
    have hne : a ≠ z := by
      intro hEq
      subst hEq
      rw [hl] at hlb
      injection hlb with hlb
      subst hlb
      obtain ⟨a2, l2, hp2, _⟩ := (chain_cons _ _ _ _ _ _).mp hc
      rw [hnb] at hp2
      cases hp2
    rw [List.cons_append, chain_cons]
    refine ⟨a, l, hp, ?_, hd, ih _ _ _ hc⟩
    rw [set_next_get_ne _ _ _ _ hne]
    exact append_get_of_some _ _ _ _ hl

theorem queue_holds_enqueue {κ : Type} (st : amqp_connection_state_t κ) (q : List amqp_frame_t)
    (x : amqp_frame_t) (h : queue_holds st q) : queue_holds (enqueue_frame st x) (q ++ [x]) := by
  unfold queue_holds at h ⊢
  cases q with
  | nil =>
    obtain ⟨hf, hl⟩ := (chain_nil _ _ _ _).mp h
    unfold enqueue_frame
    rw [hl]
    simp only [set_queue, List.nil_append]
    rw [chain_cons]
    refine ⟨st.decoding_pool.length, { data := x, next := none }, rfl, ?_, rfl, ?_⟩
    · simp
    · rw [chain_nil]
      exact ⟨rfl, rfl⟩
  | cons f fs =>
    obtain ⟨z, lz, hz, _, _⟩ := chain_last _ _ _ _ _ _ h
    unfold enqueue_frame
    rw [hz]
    simp only [set_queue]
    rw [hz] at h
    exact chain_enqueue_cons _ x z fs none _ f h

theorem queue_holds_foldl {κ : Type} :
    ∀ (fs : List amqp_frame_t) (st : amqp_connection_state_t κ) (q : List amqp_frame_t),
      queue_holds st q → queue_holds (fs.foldl enqueue_frame st) (q ++ fs) := by
  intro fs
  induction fs with
  | nil => intro st q h; simpa using h
  | cons f fs ih =>
    intro st q h
    have := ih (enqueue_frame st f) (q ++ [f]) (queue_holds_enqueue st q f h)
    simpa using this

theorem wait_frame_dequeue {κ : Type} (env : Env κ) (fuel : Nat)
    (st : amqp_connection_state_t κ) (fr x : amqp_frame_t) (rest : List amqp_frame_t)
    (h : queue_holds st (x :: rest)) :
    ∃ st1, amqp_simple_wait_frame env fuel st fr = (Res.ret (1, x), st1) ∧
      queue_holds st1 rest ∧ same_reader st1 st ∧ st1.sockfd_out = st.sockfd_out := by
  unfold queue_holds at h
  obtain ⟨a, l, hp, hl, hd, hc⟩ := (chain_cons _ _ _ _ _ _).mp h
  unfold amqp_simple_wait_frame
  rw [hp]
  simp only [hl, hd]
  cases rest with
  | nil =>
    obtain ⟨hn, hlast⟩ := (chain_nil _ _ _ _).mp hc
    simp only [hn, if_true]
    refine ⟨_, rfl, ?_, ⟨rfl, rfl, rfl, rfl, rfl⟩, rfl⟩
    unfold queue_holds
    rw [chain_nil]
    exact ⟨rfl, rfl⟩
  | cons y r =>
    obtain ⟨b, lb, hb, hlb, hdb, hcb⟩ := (chain_cons _ _ _ _ _ _).mp hc
    have hne : ¬ (l.next = none) := by rw [hb]; simp
    simp only [hne, if_false]
    refine ⟨_, rfl, ?_, ⟨rfl, rfl, rfl, rfl, rfl⟩, rfl⟩
    unfold queue_holds
    rw [chain_cons]
    exact ⟨b, lb, hb, hlb, hdb, hcb⟩

theorem wait_frames_drain {κ : Type} (env : Env κ) (fuel : Nat) :
    ∀ (q : List amqp_frame_t) (st : amqp_connection_state_t κ) (fr : amqp_frame_t),
      queue_holds st q →
      ∃ st2, wait_frames env fuel q.length st fr = (q.map (fun f => Res.ret (1, f)), st2) ∧
        amqp_frames_enqueued st2 = false ∧ same_reader st2 st := by
  intro q
  induction q with
  | nil =>
    intro st fr h
    refine ⟨st, rfl, ?_, ⟨rfl, rfl, rfl, rfl, rfl⟩⟩
    unfold queue_holds at h
    obtain ⟨hf, _⟩ := (chain_nil _ _ _ _).mp h
    simp [amqp_frames_enqueued, hf]
  | cons x rest ih =>
    intro st fr h
    obtain ⟨st1, hw, hq, hr, _⟩ := wait_frame_dequeue env fuel st fr x rest h
    obtain ⟨st2, hws, hen, hr2⟩ := ih st1 x hq
    refine ⟨st2, ?_, hen, ?_⟩
    · simp only [List.length_cons, wait_frames, hw, hws, List.map_cons]
    · obtain ⟨a1, a2, a3, a4, a5⟩ := hr
      obtain ⟨b1, b2, b3, b4, b5⟩ := hr2
      exact ⟨b1.trans a1, b2.trans a2, b3.trans a3, b4.trans a4, b5.trans a5⟩

theorem simple_rpc_run {κ : Type} (env : Env κ) (st : amqp_connection_state_t κ)
    (channel request_id expected : Nat) (decoded : Decoded)
    (fs : List amqp_frame_t) (reply : amqp_frame_t) (f0 : Nat) (t1 : amqp_connection_state_t κ)
    (hsend : 0 ≤ (amqp_send_method env st channel request_id decoded).1)
    (hreads : reads_frames env f0 (amqp_send_method env st channel request_id decoded).2
      env.indeterminate_frame (fs ++ [reply]) t1)
    (hfirst : ∀ f ∈ fs, ¬ awaited_reply env channel expected f)
    (hreply : awaited_reply env channel expected reply)
    (fuel : Nat) (hfuel : f0 + fs.length ≤ fuel) :
    amqp_simple_rpc env fuel st channel request_id expected decoded =
      (Res.ret (reply_of expected reply),
        set_queue t1 (fs.foldl enqueue_frame st).decoding_pool
          (fs.foldl enqueue_frame st).first_queued_frame
          (fs.foldl enqueue_frame st).last_queued_frame) := by
  have hq : same_queue (amqp_send_method env st channel request_id decoded).2 st :=
    ⟨rfl, rfl, rfl⟩
  unfold amqp_simple_rpc
  generalize amqp_send_method env st channel request_id decoded = x at hsend hreads hq
  obtain ⟨status, st0⟩ := x
  simp only at hsend hreads hq ⊢
  rw [if_neg (not_lt.mpr hsend)]
  exact rpc_retry_run env channel expected reply f0 hreply fs st0 st _ t1 hq
    hreads hfirst fuel hfuel

/-- C3: when the request is sent successfully and the frames arriving from the
reader are `fs` followed by `reply`, where `reply` is the first frame that is a
METHOD on the requested channel with id expected_reply_id, CONNECTION.CLOSE or
CHANNEL.CLOSE, amqp_simple_rpc (with enough fuel) returns reply = that frame's
method, with reply_type NORMAL if its id equals expected_reply_id and
SERVER_EXCEPTION otherwise, and leaves the reader (buffer, cursors, decoder,
pending reads) exactly as it was when that frame was produced: no later frame is
consumed. -/
theorem simple_rpc_stops_at_first_reply {κ : Type} (env : Env κ)
    (st : amqp_connection_state_t κ) (channel request_id expected_reply_id : Nat)
    (decoded_request_method : Decoded) (fs : List amqp_frame_t) (reply : amqp_frame_t)
    (f0 : Nat) (t1 : amqp_connection_state_t κ)
    (hsend : 0 ≤ (amqp_send_method env st channel request_id decoded_request_method).1)
    (hreads : reads_frames env f0
      (amqp_send_method env st channel request_id decoded_request_method).2
      env.indeterminate_frame (fs ++ [reply]) t1)
    (hfirst : ∀ f ∈ fs, ¬ awaited_reply env channel expected_reply_id f)
    (hreply : awaited_reply env channel expected_reply_id reply) :
    ∀ fuel, f0 + fs.length ≤ fuel →
      ∃ st1, amqp_simple_rpc env fuel st channel request_id expected_reply_id
          decoded_request_method =
          (Res.ret
            { reply_type :=
                if reply.payload.as_method.id = expected_reply_id then AMQP_RESPONSE_NORMAL
                else AMQP_RESPONSE_SERVER_EXCEPTION
              reply := reply.payload.as_method
              library_errno := 0 }, st1) ∧
        same_reader st1 t1 := by
  intro fuel hfuel
  exact ⟨_, simple_rpc_run env st channel request_id expected_reply_id decoded_request_method
    fs reply f0 t1 hsend hreads hfirst hreply fuel hfuel, ⟨rfl, rfl, rfl, rfl, rfl⟩⟩

/-- Witness of C3: the server answers CHANNEL.OPEN with CHANNEL.CLOSE (404,
NOT_FOUND) followed by another frame. The RPC returns SERVER_EXCEPTION with the
close method, and the reader has consumed one byte of the two that were read. -/
theorem simple_rpc_stops_at_first_reply_witness :
    awaited_reply ok_env 1 0x0014000B (toy_frame 5) ∧
    (∀ fuel, 2 + 0 ≤ fuel →
      ∃ st1, amqp_simple_rpc ok_env fuel (fresh_state 131072 [ReadEvent.ok [5, 4]]) 1
          0x0014000A 0x0014000B (Decoded.channel_open []) =
          (Res.ret
            { reply_type := AMQP_RESPONSE_SERVER_EXCEPTION
              reply :=
                { id := 0x00140028
                  decoded := Decoded.table [[404], [78, 79, 84, 95, 70, 79, 85, 78, 68]] }
              library_errno := 0 }, st1) ∧
        same_reader st1
          { (fresh_state 131072 []) with
            sock_inbound_buffer := [5, 4, 0, 0, 0, 0, 0, 0]
            sock_inbound_offset := 1
            sock_inbound_limit := 2
            sockfd_out := [Output.frame (method_frame 1 0x0014000A (Decoded.channel_open []))] }) :=
  ⟨by decide,
   simple_rpc_stops_at_first_reply ok_env (fresh_state 131072 [ReadEvent.ok [5, 4]]) 1
    0x0014000A 0x0014000B (Decoded.channel_open []) [] (toy_frame 5) 2 _
    (by decide) ⟨_, rfl, rfl⟩ (by simp) (by decide)⟩

/-- C4: queue-order preservation. From a well-formed queue holding `q`, when
the frames `fs` arrive before the awaited `reply`, amqp_simple_rpc returns and
the queue afterwards is well formed and holds `q ++ fs`: every non-matching
frame is parked, in arrival order, behind what was queued before. The next
|q ++ fs| calls of amqp_simple_wait_frame return exactly those frames, one by
one in that order, each with status 1, and afterwards amqp_frames_enqueued is
false. -/
theorem simple_rpc_queue_order {κ : Type} (env : Env κ)
    (st : amqp_connection_state_t κ) (channel request_id expected_reply_id : Nat)
    (decoded_request_method : Decoded) (q fs : List amqp_frame_t) (reply : amqp_frame_t)
    (f0 : Nat) (t1 : amqp_connection_state_t κ)
    (hq : queue_holds st q)
    (hsend : 0 ≤ (amqp_send_method env st channel request_id decoded_request_method).1)
    (hreads : reads_frames env f0
      (amqp_send_method env st channel request_id decoded_request_method).2
      env.indeterminate_frame (fs ++ [reply]) t1)
    (hfirst : ∀ f ∈ fs, ¬ awaited_reply env channel expected_reply_id f)
    (hreply : awaited_reply env channel expected_reply_id reply) :
    ∀ fuel, f0 + fs.length ≤ fuel →
      ∃ r st1, amqp_simple_rpc env fuel st channel request_id expected_reply_id
          decoded_request_method = (Res.ret r, st1) ∧
        queue_holds st1 (q ++ fs) ∧
        ∀ (fuel2 : Nat) (frame : amqp_frame_t),
          ∃ st2, wait_frames env fuel2 (q ++ fs).length st1 frame =
              ((q ++ fs).map (fun f => Res.ret (1, f)), st2) ∧
            amqp_frames_enqueued st2 = false := by
  intro fuel hfuel
  have hrun := simple_rpc_run env st channel request_id expected_reply_id decoded_request_method
    fs reply f0 t1 hsend hreads hfirst hreply fuel hfuel
  have hq1 : queue_holds (set_queue t1 (fs.foldl enqueue_frame st).decoding_pool
      (fs.foldl enqueue_frame st).first_queued_frame
      (fs.foldl enqueue_frame st).last_queued_frame) (q ++ fs) :=
    queue_holds_foldl fs st q hq
  refine ⟨_, _, hrun, hq1, ?_⟩
  intro fuel2 frame
  obtain ⟨st2, h1, h2, _⟩ := wait_frames_drain env fuel2 (q ++ fs) _ frame hq1
  exact ⟨st2, h1, h2⟩

/-- Witness of C4: a spurious METHOD frame on channel 1 arrives before
CONNECTION.OPEN_OK. The RPC returns, the queue holds the spurious frame, one
call of amqp_simple_wait_frame returns it and then no frame is enqueued. -/
theorem simple_rpc_queue_order_witness :
    queue_holds (fresh_state 131072 [ReadEvent.ok [6, 3]]) [] ∧
    (¬ awaited_reply ok_env 0 0x000A0029 (toy_frame 6)) ∧
    awaited_reply ok_env 0 0x000A0029 (toy_frame 3) ∧
    (∀ fuel, 2 + [toy_frame 6].length ≤ fuel →
      ∃ r st1, amqp_simple_rpc ok_env fuel (fresh_state 131072 [ReadEvent.ok [6, 3]]) 0
          0x000A0028 0x000A0029 (Decoded.connection_open [47] [] 1) = (Res.ret r, st1) ∧
        queue_holds st1 ([] ++ [toy_frame 6]) ∧
        ∀ (fuel2 : Nat) (frame : amqp_frame_t),
          ∃ st2, wait_frames ok_env fuel2 ([] ++ [toy_frame 6]).length st1 frame =
              (([] ++ [toy_frame 6]).map (fun f => Res.ret (1, f)), st2) ∧
            amqp_frames_enqueued st2 = false) :=
  ⟨by decide, by decide, by decide,
   simple_rpc_queue_order ok_env (fresh_state 131072 [ReadEvent.ok [6, 3]]) 0
    0x000A0028 0x000A0029 (Decoded.connection_open [47] [] 1) [] [toy_frame 6] (toy_frame 3) 2 _
    (by decide) (by decide) ⟨_, rfl, _, rfl, rfl⟩
    (by intro f hf; rw [List.mem_singleton.mp hf]; decide) (by decide)⟩

/-! ## The login handshake -/

theorem strlen_cstring (u junk : List Nat) (hu : ∀ b ∈ u, b ≠ 0) :
    strlen (u ++ 0 :: junk) = u.length := by
  unfold strlen
  induction u with
  | nil => simp
  | cons a u ih =>
    have ha : a ≠ 0 := hu a (List.mem_cons_self _ _)
    have := ih (fun b hb => hu b (List.mem_cons_of_mem _ hb))
    simp [List.takeWhile_cons, ha, this]

theorem plain_layout (L u p U P : List Nat) (hL : L.length = u.length + p.length + 2)
    (hU : U.take u.length = u) (hP : P.take p.length = p) :
    memcpy ((memcpy (L.set 0 0) 1 U u.length).set (u.length + 1) 0) (u.length + 2) P p.length =
      0 :: u ++ 0 :: p := by
  obtain ⟨a, L1, rfl⟩ : ∃ a L1, L = a :: L1 := by
    cases L with
    | nil => simp at hL
    | cons a L1 => exact ⟨a, L1, rfl⟩
  have hL1 : L1.length = u.length + (p.length + 1) := by simp at hL; omega
  have h1 : memcpy ((a :: L1).set 0 0) 1 U u.length = (0 :: u) ++ L1.drop u.length := by
    unfold memcpy
    rw [hU]
    simp [Nat.add_comm]
  rw [h1]
  obtain ⟨b, L2, hb⟩ : ∃ b L2, L1.drop u.length = b :: L2 := by
    cases h : L1.drop u.length with
    | nil =>
      have := congrArg List.length h
      rw [List.length_drop] at this
      simp at this
      omega
    | cons b L2 => exact ⟨b, L2, rfl⟩
  have hL2 : L2.length = p.length := by
    have := congrArg List.length hb
    rw [List.length_drop] at this
    simp at this
    omega
  rw [hb]
  have h2 : ((0 :: u) ++ b :: L2).set (u.length + 1) 0 = (0 :: u ++ [0]) ++ L2 := by
    rw [List.set_append_right _ _ (by simp)]
    simp
  rw [h2]
  unfold memcpy
  rw [hP]
  have h3 : List.take (u.length + 2) ((0 :: u ++ [0]) ++ L2) = 0 :: u ++ [0] :=
    List.take_left' (by simp)
  have h4 : List.drop (u.length + 2 + p.length) ((0 :: u ++ [0]) ++ L2) = [] :=
    List.drop_eq_nil_of_le (by simp; omega)
  rw [h3, h4]
  simp

theorem sasl_response_plain {κ : Type} (env : Env κ) (u p junk1 junk2 : List Nat)
    (rest : List (List Nat)) (hu : ∀ b ∈ u, b ≠ 0) (hp : ∀ b ∈ p, b ≠ 0) :
    sasl_response env AMQP_SASL_METHOD_PLAIN ((u ++ 0 :: junk1) :: (p ++ 0 :: junk2) :: rest) =
      Res.ret (0 :: u ++ 0 :: p) := by
  unfold sasl_response
  simp only [if_true, strlen_cstring u junk1 hu, strlen_cstring p junk2 hp]
  rw [plain_layout _ u p _ _ (by simp [amqp_pool_alloc_bytes]) (List.take_left' rfl)
    (List.take_left' rfl)]

theorem to_uint32_to_int (n : Nat) (h : n < 2 ^ 32) : to_uint32 (to_int n) = n := by
  unfold to_uint32 to_int
  have h1 : n % 2 ^ 32 = n := Nat.mod_eq_of_lt h
  rw [h1]
  split <;> omega

theorem to_uint32_of_nonneg (c : Int) (h0 : 0 ≤ c) (h1 : c < 2 ^ 32) : to_uint32 c = c.toNat := by
  unfold to_uint32
  omega

/-- The value amqp_login_inner puts in TUNE_OK, as the spec states it. -/
theorem negotiated_frame_max (c : Int) (s : Nat) (hs : s < 2 ^ 32) :
    to_uint32 (if s ≠ 0 ∧ s < to_uint32 c then to_int s else c) =
      if s = 0 then to_uint32 c else min (to_uint32 c) s := by
  by_cases h0 : s = 0
  · simp [h0]
  · by_cases h1 : s < to_uint32 c
    · rw [if_pos ⟨h0, h1⟩, if_neg h0, to_uint32_to_int s hs]
      omega
    · rw [if_neg (fun h => h1 h.2), if_neg h0]
      omega

theorem amqp_release_buffers_out {κ : Type} (env : Env κ) (st : amqp_connection_state_t κ) :
    (amqp_release_buffers env st).2.sockfd_out = st.sockfd_out := by
  unfold amqp_release_buffers
  split <;> rfl

/-- C5 (amended): frame-max negotiation. In a handshake that reaches the TUNE step
(CONNECTION.START with the library's version was received, START_OK was sent,
and CONNECTION.TUNE carrying server_frame_max = s was received), the last thing
amqp_login_inner hands to the socket is CONNECTION.TUNE_OK on channel 0 with
channel_max = 1, heartbeat = 0 and frame_max = c if s == 0, else min(c, s),
where c is the client's frame_max read as a u32 (c itself when 0 <= c). -/
theorem tune_ok_frame_max {κ : Type} (env : Env κ) (fuel : Nat)
    (st : amqp_connection_state_t κ) (c : Int) (sasl_method : Nat) (vl : List (List Nat))
    (response mechanism mechanisms : List Nat) (id1 id2 channel_max s heartbeat : Nat)
    (st1 st4 : amqp_connection_state_t κ)
    (hstart : amqp_simple_wait_method env fuel (amqp_send_header env st)
      env.AMQP_CONNECTION_START_METHOD env.indeterminate_method =
        (Res.ret (1, start_method env id1 mechanisms), st1))
    (hresponse : sasl_response env sasl_method vl = Res.ret response)
    (hmechanism : sasl_method_name sasl_method = Res.ret mechanism)
    (hsend : 0 ≤ (amqp_send_method env st1 0 env.AMQP_CONNECTION_START_OK_METHOD
      (start_ok_record mechanism response)).1)
    (hqueue : st1.first_queued_frame = none)
    (htune : amqp_simple_wait_method env fuel
      (amqp_release_buffers env (amqp_send_method env st1 0 env.AMQP_CONNECTION_START_OK_METHOD
        (start_ok_record mechanism response)).2).2
      env.AMQP_CONNECTION_TUNE_METHOD (start_method env id1 mechanisms) =
        (Res.ret (1, { id := id2, decoded := Decoded.connection_tune channel_max s heartbeat }),
          st4))
    (hs : s < 2 ^ 32) :
    (amqp_login_inner env fuel st c sasl_method vl).2.sockfd_out =
      st4.sockfd_out ++
        [tune_ok_frame env (if s = 0 then to_uint32 c else min (to_uint32 c) s)] ∧
    (0 ≤ c → c < 2 ^ 31 → to_uint32 c = c.toNat) := by
  refine ⟨?_, fun h0 h1 => to_uint32_of_nonneg c h0 (by omega)⟩
  have hrel : amqp_release_buffers env (amqp_send_method env st1 0
      env.AMQP_CONNECTION_START_OK_METHOD (start_ok_record mechanism response)).2 =
      (Res.ret (), (amqp_release_buffers env (amqp_send_method env st1 0
      env.AMQP_CONNECTION_START_OK_METHOD (start_ok_record mechanism response)).2).2) := by
    unfold amqp_release_buffers
    have : (amqp_send_method env st1 0 env.AMQP_CONNECTION_START_OK_METHOD
      (start_ok_record mechanism response)).2.first_queued_frame = none := hqueue
    simp [this]
  unfold amqp_login_inner
  simp only [hstart, Res.and_then, hresponse, hmechanism, start_method]
  have hmod : s % 2 ^ 32 = s := Nat.mod_eq_of_lt hs
  unfold start_ok_record start_method at *
  generalize hsm : amqp_send_method env st1 0 env.AMQP_CONNECTION_START_OK_METHOD
      (Decoded.connection_start_ok 0 mechanism response [101, 110, 95, 85, 83]) = x
      at hsend hrel htune
  obtain ⟨status, st2⟩ := x
  simp only at hsend hrel htune
  simp only [show ¬ ((1 : Int) ≤ 0) by decide, if_false, ne_eq, not_true_eq_false, or_self,
    not_lt.mpr hsend]
  rw [hrel]
  simp only [htune, show ¬ ((1 : Int) ≤ 0) by decide, if_false, hmod]
  rw [negotiated_frame_max c s hs]
  generalize (if s = 0 then to_uint32 c else min (to_uint32 c) s) = fm
  split
  · rfl
  · have hout := amqp_release_buffers_out env (amqp_send_method env st4 0
      env.AMQP_CONNECTION_TUNE_OK_METHOD (Decoded.connection_tune_ok 1 fm 0)).2
    generalize amqp_release_buffers env (amqp_send_method env st4 0
      env.AMQP_CONNECTION_TUNE_OK_METHOD (Decoded.connection_tune_ok 1 fm 0)).2 = y at hout
    obtain ⟨r, st5⟩ := y
    cases r <;> exact hout

/-- Witness of C5: client 1048576 and server 65536 give TUNE_OK 65536; client
4096 and server 0 give TUNE_OK 4096. -/
theorem tune_ok_frame_max_witness :
    ((amqp_login_inner ok_env 4 (fresh_state 131072 [ReadEvent.ok [1, 2]]) 1048576
        AMQP_SASL_METHOD_PLAIN [[117, 115, 101, 114, 0], [112, 119, 0]]).2.sockfd_out =
      [Output.raw [65, 77, 81, 80, 1, 1, 8, 0],
       request_frame ok_env 0 0x000A000B
        (start_ok_record [80, 76, 65, 73, 78] [0, 117, 115, 101, 114, 0, 112, 119]),
       tune_ok_frame ok_env 65536]) ∧
    ((amqp_login_inner ok_env 4 (fresh_state 131072 [ReadEvent.ok [1, 9]]) 4096
        AMQP_SASL_METHOD_PLAIN [[117, 115, 101, 114, 0], [112, 119, 0]]).2.sockfd_out =
      [Output.raw [65, 77, 81, 80, 1, 1, 8, 0],
       request_frame ok_env 0 0x000A000B
        (start_ok_record [80, 76, 65, 73, 78] [0, 117, 115, 101, 114, 0, 112, 119]),
       tune_ok_frame ok_env 4096]) :=
  ⟨(tune_ok_frame_max ok_env 4 (fresh_state 131072 [ReadEvent.ok [1, 2]]) 1048576
      AMQP_SASL_METHOD_PLAIN [[117, 115, 101, 114, 0], [112, 119, 0]]
      [0, 117, 115, 101, 114, 0, 112, 119] [80, 76, 65, 73, 78] [80, 76, 65, 73, 78]
      0x000A000A 0x000A001E 0 65536 0 _ _ rfl rfl rfl (by decide) rfl rfl (by decide)).1,
   (tune_ok_frame_max ok_env 4 (fresh_state 131072 [ReadEvent.ok [1, 9]]) 4096
      AMQP_SASL_METHOD_PLAIN [[117, 115, 101, 114, 0], [112, 119, 0]]
      [0, 117, 115, 101, 114, 0, 112, 119] [80, 76, 65, 73, 78] [80, 76, 65, 73, 78]
      0x000A000A 0x000A001E 0 0 0 _ _ rfl rfl rfl (by decide) rfl rfl (by decide)).1⟩

/-- Counterexample to C5 as stated: the client passes frame_max = -1. With the
server's frame_max 65536 the claim's value is min(-1, 65536) = -1, yet TUNE_OK
carries 65536; with the server's frame_max 0 the claim's value is -1, and
TUNE_OK carries 4294967295. -/
theorem tune_ok_frame_max_counterexample :
    ((amqp_login_inner ok_env 4 (fresh_state 131072 [ReadEvent.ok [1, 2]]) (-1)
        AMQP_SASL_METHOD_PLAIN user_pw).2.sockfd_out =
      [Output.raw [65, 77, 81, 80, 1, 1, 8, 0],
       request_frame ok_env 0 0x000A000B
        (start_ok_record [80, 76, 65, 73, 78] [0, 117, 115, 101, 114, 0, 112, 119]),
       tune_ok_frame ok_env 65536]) ∧
    ((65536 : Int) ≠ min (-1) 65536) ∧
    ((amqp_login_inner ok_env 4 (fresh_state 131072 [ReadEvent.ok [1, 9]]) (-1)
        AMQP_SASL_METHOD_PLAIN user_pw).2.sockfd_out =
      [Output.raw [65, 77, 81, 80, 1, 1, 8, 0],
       request_frame ok_env 0 0x000A000B
        (start_ok_record [80, 76, 65, 73, 78] [0, 117, 115, 101, 114, 0, 112, 119]),
       tune_ok_frame ok_env 4294967295]) ∧
    ((4294967295 : Int) ≠ -1) := by
  decide

theorem wait_frame_step_out {κ : Type} (env : Env κ) (st : amqp_connection_state_t κ)
    (fr : amqp_frame_t) :
    match wait_frame_step env st fr with
    | Sum.inl (_, st1) => st1.sockfd_out = st.sockfd_out
    | Sum.inr (st1, _) => st1.sockfd_out = st.sockfd_out := by
  unfold wait_frame_step
  by_cases hlt : st.sock_inbound_offset < st.sock_inbound_limit
  · rw [if_pos hlt]
    dsimp only
    split_ifs <;> rfl
  · rw [if_neg hlt]
    cases st.sockfd_in with
    | nil => rfl
    | cons ev rest =>
      cases ev with
      | fail errno => rfl
      | ok bytes =>
        dsimp only
        split_ifs <;> rfl

theorem wait_frame_inner_out {κ : Type} (env : Env κ) :
    ∀ (fuel : Nat) (st : amqp_connection_state_t κ) (fr : amqp_frame_t),
      (wait_frame_inner env fuel st fr).2.sockfd_out = st.sockfd_out := by
  intro fuel
  induction fuel with
  | zero => intro st fr; rfl
  | succ n ih =>
    intro st fr
    rw [wait_frame_inner_succ]
    have h := wait_frame_step_out env st fr
    cases hs : wait_frame_step env st fr with
    | inl res =>
      rw [hs] at h
      exact h
    | inr p =>
      obtain ⟨st2, fr2⟩ := p
      rw [hs] at h
      simp only at h ⊢
      rw [ih, h]

theorem enqueue_frame_out {κ : Type} (st : amqp_connection_state_t κ) (f : amqp_frame_t) :
    (enqueue_frame st f).sockfd_out = st.sockfd_out := by
  rw [enqueue_frame_eq_set_queue]
  rfl

theorem rpc_retry_out {κ : Type} (env : Env κ) (channel expected : Nat) :
    ∀ (fuel : Nat) (st : amqp_connection_state_t κ) (fr : amqp_frame_t),
      (amqp_simple_rpc_retry env fuel st channel expected fr).2.sockfd_out = st.sockfd_out := by
  intro fuel
  induction fuel with
  | zero => intro st fr; rfl
  | succ n ih =>
    intro st fr
    rw [amqp_simple_rpc_retry]
    have h := wait_frame_inner_out env (n + 1) st fr
    generalize wait_frame_inner env (n + 1) st fr = x at h
    obtain ⟨r, st1⟩ := x
    simp only at h
    cases r with
    | ret a =>
      obtain ⟨status, frame⟩ := a
      simp only
      split_ifs
      · exact h
      · rw [ih, enqueue_frame_out, h]
      · exact h
      · exact h
    | abort => exact h
    | blocked => exact h
    | undefined => exact h
    | out_of_fuel => exact h

theorem simple_rpc_out {κ : Type} (env : Env κ) (fuel : Nat) (st : amqp_connection_state_t κ)
    (channel request_id expected : Nat) (decoded : Decoded) :
    (amqp_simple_rpc env fuel st channel request_id expected decoded).2.sockfd_out =
      st.sockfd_out ++ [request_frame env channel request_id decoded] := by
  unfold amqp_simple_rpc amqp_send_method amqp_send_frame
  simp only
  split_ifs
  · rfl
  · rw [rpc_retry_out]
    rfl

theorem maybe_release_buffers_ret {κ : Type} (env : Env κ) (st : amqp_connection_state_t κ) :
    amqp_maybe_release_buffers env st = (Res.ret (), (amqp_maybe_release_buffers env st).2) := by
  unfold amqp_maybe_release_buffers amqp_release_buffers
  by_cases h : st.first_queued_frame = none
  · simp [h]
  · simp [h]

theorem maybe_release_buffers_out {κ : Type} (env : Env κ) (st : amqp_connection_state_t κ) :
    (amqp_maybe_release_buffers env st).2.sockfd_out = st.sockfd_out := by
  unfold amqp_maybe_release_buffers
  split
  · exact amqp_release_buffers_out env st
  · rfl

/-- C10: once amqp_login_inner has returned, if the CONNECTION.OPEN RPC returns
a reply whose reply_type is not NORMAL, amqp_login returns exactly that reply
and the last frame sent is the CONNECTION.OPEN request (CHANNEL.OPEN is not
sent); if CONNECTION.OPEN returns NORMAL and the CHANNEL.OPEN RPC returns a
reply that is not NORMAL, amqp_login returns exactly that reply and the last
frame sent is the CHANNEL.OPEN request. -/
theorem login_surfaces_rpc_failure {κ : Type} (env : Env κ) (fuel : Nat)
    (st : amqp_connection_state_t κ) (vhost : List Nat) (frame_max : Int) (sasl_method : Nat)
    (vl : List (List Nat)) (status : Int) (st1 : amqp_connection_state_t κ)
    (hinner : amqp_login_inner env fuel st frame_max sasl_method vl = (Res.ret status, st1)) :
    (∀ (r : amqp_rpc_reply_t) (st2 : amqp_connection_state_t κ),
      amqp_simple_rpc env fuel st1 0 env.AMQP_CONNECTION_OPEN_METHOD
        env.AMQP_CONNECTION_OPEN_OK_METHOD
        (Decoded.connection_open (amqp_cstring_bytes vhost) [] 1) = (Res.ret r, st2) →
      r.reply_type ≠ AMQP_RESPONSE_NORMAL →
      amqp_login env fuel st vhost frame_max sasl_method vl = (Res.ret r, st2) ∧
      st2.sockfd_out = st1.sockfd_out ++ [request_frame env 0 env.AMQP_CONNECTION_OPEN_METHOD
        (Decoded.connection_open (amqp_cstring_bytes vhost) [] 1)]) ∧
    (∀ (r r2 : amqp_rpc_reply_t) (st2 st4 : amqp_connection_state_t κ),
      amqp_simple_rpc env fuel st1 0 env.AMQP_CONNECTION_OPEN_METHOD
        env.AMQP_CONNECTION_OPEN_OK_METHOD
        (Decoded.connection_open (amqp_cstring_bytes vhost) [] 1) = (Res.ret r, st2) →
      r.reply_type = AMQP_RESPONSE_NORMAL →
      amqp_simple_rpc env fuel (amqp_maybe_release_buffers env st2).2 1
        env.AMQP_CHANNEL_OPEN_METHOD env.AMQP_CHANNEL_OPEN_OK_METHOD
        (Decoded.channel_open []) = (Res.ret r2, st4) →
      r2.reply_type ≠ AMQP_RESPONSE_NORMAL →
      amqp_login env fuel st vhost frame_max sasl_method vl = (Res.ret r2, st4) ∧
      st4.sockfd_out = st2.sockfd_out ++ [request_frame env 1 env.AMQP_CHANNEL_OPEN_METHOD
        (Decoded.channel_open [])]) := by
  constructor
  · intro r st2 h1 hr
    refine ⟨?_, ?_⟩
    · unfold amqp_login
      simp only [hinner, Res.and_then, h1, hr, ne_eq, not_false_eq_true, if_true]
    · have := simple_rpc_out env fuel st1 0 env.AMQP_CONNECTION_OPEN_METHOD
        env.AMQP_CONNECTION_OPEN_OK_METHOD (Decoded.connection_open (amqp_cstring_bytes vhost) [] 1)
      rw [h1] at this
      exact this
  · intro r r2 st2 st4 h1 hr h2 hr2
    refine ⟨?_, ?_⟩
    · unfold amqp_login
      simp only [hinner, Res.and_then, h1, hr, ne_eq, not_true_eq_false, if_false]
      rw [maybe_release_buffers_ret]
      simp only [h2, hr2, not_false_eq_true, if_true]
    · have := simple_rpc_out env fuel (amqp_maybe_release_buffers env st2).2 1
        env.AMQP_CHANNEL_OPEN_METHOD env.AMQP_CHANNEL_OPEN_OK_METHOD (Decoded.channel_open [])
      rw [h2, maybe_release_buffers_out] at this
      exact this

/-- Witness of C10: CONNECTION.CLOSE answering CONNECTION.OPEN is returned by
amqp_login and CHANNEL.OPEN is not sent; CHANNEL.CLOSE (404) answering
CHANNEL.OPEN is returned by amqp_login. -/
theorem login_surfaces_rpc_failure_witness :
    (∃ st2, amqp_login ok_env 6 (fresh_state 131072 [ReadEvent.ok [1, 2, 10]]) [47, 0] 131072
        AMQP_SASL_METHOD_PLAIN user_pw =
        (Res.ret
          { reply_type := AMQP_RESPONSE_SERVER_EXCEPTION
            reply := { id := 0x000A003C, decoded := Decoded.table [[403], [68, 69, 78, 73, 69, 68]] }
            library_errno := 0 }, st2) ∧
      sent_method_ids ok_env st2.sockfd_out = [0x000A000B, 0x000A001F, 0x000A0028]) ∧
    (∃ st4, amqp_login ok_env 6 (fresh_state 131072 [ReadEvent.ok [1, 2, 3, 5]]) [47, 0] 131072
        AMQP_SASL_METHOD_PLAIN user_pw =
        (Res.ret
          { reply_type := AMQP_RESPONSE_SERVER_EXCEPTION
            reply :=
              { id := 0x00140028
                decoded := Decoded.table [[404], [78, 79, 84, 95, 70, 79, 85, 78, 68]] }
            library_errno := 0 }, st4) ∧
      sent_method_ids ok_env st4.sockfd_out =
        [0x000A000B, 0x000A001F, 0x000A0028, 0x0014000A]) :=
  ⟨⟨_, ((login_surfaces_rpc_failure ok_env 6 (fresh_state 131072 [ReadEvent.ok [1, 2, 10]])
      [47, 0] 131072 AMQP_SASL_METHOD_PLAIN user_pw 1 _ rfl).1 _ _ rfl (by decide)).1,
      by decide⟩,
   ⟨_, ((login_surfaces_rpc_failure ok_env 6 (fresh_state 131072 [ReadEvent.ok [1, 2, 3, 5]])
      [47, 0] 131072 AMQP_SASL_METHOD_PLAIN user_pw 1 _ rfl).2 _ _ _ _ rfl (by decide) rfl
      (by decide)).1, by decide⟩⟩

/-- C6 (the code at the failing input): the server tunes frame_max down to
65536 while the connection state holds 131072. Login returns NORMAL and
TUNE_OK carried 65536, but the frame_max field of the connection state, which
amqp_basic_publish reads, is still 131072. -/
theorem login_keeps_state_frame_max :
    (amqp_login ok_env 6 (fresh_state 131072 [ReadEvent.ok [1, 2, 3, 4]]) [47, 0] 131072
        AMQP_SASL_METHOD_PLAIN user_pw).1 =
      Res.ret { reply_type := AMQP_RESPONSE_NORMAL
                reply := { id := 0, decoded := Decoded.null }
                library_errno := 0 } ∧
    tune_ok_frame ok_env 65536 ∈
      (amqp_login ok_env 6 (fresh_state 131072 [ReadEvent.ok [1, 2, 3, 4]]) [47, 0] 131072
        AMQP_SASL_METHOD_PLAIN user_pw).2.sockfd_out ∧
    (amqp_login ok_env 6 (fresh_state 131072 [ReadEvent.ok [1, 2, 3, 4]]) [47, 0] 131072
        AMQP_SASL_METHOD_PLAIN user_pw).2.frame_max = 131072 := by
  decide

/-- C8 (the code at the failing input): the server announces version 9.1 to
a library speaking 8.0. amqp_login_inner returns -EPROTOTYPE, yet amqp_login
goes on to send CONNECTION.OPEN and CHANNEL.OPEN and returns NORMAL. -/
theorem login_ignores_version_mismatch :
    (amqp_login_inner ok_env 6 (fresh_state 131072 [ReadEvent.ok [7, 3, 4]]) 131072
        AMQP_SASL_METHOD_PLAIN user_pw).1 = Res.ret (-91) ∧
    (amqp_login ok_env 6 (fresh_state 131072 [ReadEvent.ok [7, 3, 4]]) [47, 0] 131072
        AMQP_SASL_METHOD_PLAIN user_pw).1 =
      Res.ret { reply_type := AMQP_RESPONSE_NORMAL
                reply := { id := 0, decoded := Decoded.null }
                library_errno := 0 } ∧
    sent_method_ids ok_env
      (amqp_login ok_env 6 (fresh_state 131072 [ReadEvent.ok [7, 3, 4]]) [47, 0] 131072
        AMQP_SASL_METHOD_PLAIN user_pw).2.sockfd_out = [0x000A0028, 0x0014000A] := by
  decide

/-- C9 (the code at the failing inputs): a read error (errno 4) while waiting
for CONNECTION.START makes amqp_login_inner return -4, and a failing send of
START_OK makes it return -32; in both runs amqp_login goes on with the
CONNECTION.OPEN and CHANNEL.OPEN RPCs and, the server answering OPEN_OK and
CHANNEL.OPEN_OK, returns NORMAL. -/
theorem login_ignores_handshake_failure :
    ((amqp_login_inner ok_env 6 (fresh_state 131072 [ReadEvent.fail 4, ReadEvent.ok [1, 3, 4]])
        131072 AMQP_SASL_METHOD_PLAIN user_pw).1 = Res.ret (-4) ∧
     (amqp_login ok_env 6 (fresh_state 131072 [ReadEvent.fail 4, ReadEvent.ok [1, 3, 4]]) [47, 0]
        131072 AMQP_SASL_METHOD_PLAIN user_pw).1 =
      Res.ret { reply_type := AMQP_RESPONSE_NORMAL
                reply := { id := 0, decoded := Decoded.null }
                library_errno := 0 } ∧
     sent_method_ids ok_env
      (amqp_login ok_env 6 (fresh_state 131072 [ReadEvent.fail 4, ReadEvent.ok [1, 3, 4]]) [47, 0]
        131072 AMQP_SASL_METHOD_PLAIN user_pw).2.sockfd_out = [0x000A0028, 0x0014000A]) ∧
    ((amqp_login_inner first_send_fails_env 6 (fresh_state 131072 [ReadEvent.ok [1, 3, 4]])
        131072 AMQP_SASL_METHOD_PLAIN user_pw).1 = Res.ret (-32) ∧
     (amqp_login first_send_fails_env 6 (fresh_state 131072 [ReadEvent.ok [1, 3, 4]]) [47, 0]
        131072 AMQP_SASL_METHOD_PLAIN user_pw).1 =
      Res.ret { reply_type := AMQP_RESPONSE_NORMAL
                reply := { id := 0, decoded := Decoded.null }
                library_errno := 0 } ∧
     sent_method_ids first_send_fails_env
      (amqp_login first_send_fails_env 6 (fresh_state 131072 [ReadEvent.ok [1, 3, 4]]) [47, 0]
        131072 AMQP_SASL_METHOD_PLAIN user_pw).2.sockfd_out =
        [0x000A000B, 0x000A0028, 0x0014000A]) := by
  decide

/-- C7: SASL PLAIN encoding. For every NUL-free username u and password p
(passed as C strings, i.e. followed by a NUL), sasl_response for the PLAIN
method returns a byte slice of length |u| + |p| + 2 whose content is exactly
0x00, u, 0x00, p, whatever the allocated region held before. -/
theorem sasl_response_plain_encoding {κ : Type} (env : Env κ) (u p junk1 junk2 : List Nat)
    (rest : List (List Nat)) (hu : ∀ b ∈ u, b ≠ 0) (hp : ∀ b ∈ p, b ≠ 0) :
    ∃ response,
      sasl_response env AMQP_SASL_METHOD_PLAIN ((u ++ 0 :: junk1) :: (p ++ 0 :: junk2) :: rest) =
        Res.ret response ∧
      response = [0] ++ u ++ [0] ++ p ∧
      response.length = u.length + p.length + 2 := by
  refine ⟨_, sasl_response_plain env u p junk1 junk2 rest hu hp, by simp, ?_⟩
  simp
  omega

/-- Witness of C7: user "user" and password "pw". -/
theorem sasl_response_plain_encoding_witness :
    ∃ response,
      sasl_response ok_env AMQP_SASL_METHOD_PLAIN
        (([117, 115, 101, 114] ++ 0 :: []) :: ([112, 119] ++ 0 :: []) :: []) =
        Res.ret response ∧
      response = [0] ++ [117, 115, 101, 114] ++ [0] ++ [112, 119] ∧
      response.length = [117, 115, 101, 114].length + [112, 119].length + 2 :=
  sasl_response_plain_encoding ok_env [117, 115, 101, 114] [112, 119] [] [] []
    (by decide) (by decide)

/-- C1 (amended): for every body B with |B| < 2^31 and every u32 frame_max with
frame_max - HEADER_SIZE - FOOTER_SIZE >= 1, when every send succeeds
amqp_basic_publish returns 0 (with fuel above |B|) after emitting the METHOD
frame, the HEADER frame and BODY frames whose bytes fields, concatenated in
emission order, equal B; every fragment length is at most
frame_max - HEADER_SIZE - FOOTER_SIZE, and every fragment before the last has
exactly that length. -/
theorem basic_publish_fragments {κ : Type} (env : Env κ) (st : amqp_connection_state_t κ)
    (exchange routing_key : List Nat) (mandatory immediate : Nat)
    (properties : Option amqp_basic_properties_t) (B : List Nat)
    (hB : B.length < 2 ^ 31) (hmax : st.frame_max < 2 ^ 32)
    (husable : 1 ≤ st.frame_max - HEADER_SIZE - FOOTER_SIZE) (hs : sends_succeed env) :
    ∃ frags : List (List Nat),
      (∀ fuel, B.length < fuel →
        amqp_basic_publish env fuel st exchange routing_key mandatory immediate properties B =
          (Res.ret 0, { st with sockfd_out := (st.sockfd_out ++
            [publish_method_frame env exchange routing_key mandatory immediate,
             publish_header_frame env B.length properties] ++
            frags.map (body_frame env)) })) ∧
      frags.flatten = B ∧
      (∀ f ∈ frags, f.length ≤ st.frame_max - HEADER_SIZE - FOOTER_SIZE) ∧
      (∀ (front : List (List Nat)) (last : List Nat), frags = front ++ [last] →
        ∀ f ∈ front, f.length = st.frame_max - HEADER_SIZE - FOOTER_SIZE) := by
  have e : st.frame_max - HEADER_SIZE - FOOTER_SIZE = st.frame_max - 8 := by
    simp [HEADER_SIZE, FOOTER_SIZE]; omega
  rw [e] at husable ⊢
  refine ⟨body_slices B (st.frame_max - 8), ?_, ?_, ?_, ?_⟩
  · intro fuel hfuel
    exact publish_ok env st exchange routing_key mandatory immediate properties B hB hmax
      husable hs fuel hfuel
  · exact body_slices_join _ husable _ B (le_refl _)
  · exact body_slices_length_le _ husable _ B (le_refl _)
  · exact body_slices_front_full _ husable _ B (le_refl _)

/-- Witness of C1 (amended): frame_max = 10 and a body of 5 bytes. -/
theorem basic_publish_fragments_witness :
    ∃ frags : List (List Nat),
      (∀ fuel, [1, 2, 3, 4, 5].length < fuel →
        amqp_basic_publish ok_env fuel (fresh_state 10 []) [] [] 0 0 none [1, 2, 3, 4, 5] =
          (Res.ret 0, { (fresh_state 10 []) with sockfd_out := ((fresh_state 10 []).sockfd_out ++
            [publish_method_frame ok_env [] [] 0 0,
             publish_header_frame ok_env [1, 2, 3, 4, 5].length none] ++
            frags.map (body_frame ok_env)) })) ∧
      frags.flatten = [1, 2, 3, 4, 5] ∧
      (∀ f ∈ frags, f.length ≤ (fresh_state 10 []).frame_max - HEADER_SIZE - FOOTER_SIZE) ∧
      (∀ (front : List (List Nat)) (last : List Nat), frags = front ++ [last] →
        ∀ f ∈ front, f.length = (fresh_state 10 []).frame_max - HEADER_SIZE - FOOTER_SIZE) :=
  basic_publish_fragments ok_env (fresh_state 10 []) [] [] 0 0 none [1, 2, 3, 4, 5]
    (by decide) (by decide) (by decide) ok_env_sends_succeed

/-! ## Where the fragmentation claim fails -/

/-- A body of 2^32 bytes: `remaining` wraps to 0 and no BODY frame is sent. -/
theorem publish_huge_body {κ : Type} (env : Env κ) (hs : sends_succeed env)
    (st : amqp_connection_state_t κ) (B : List Nat) (hB : B.length = 2 ^ 32) (fuel : Nat) :
    amqp_basic_publish env (fuel + 1) st [] [] 0 0 none B =
      (Res.ret 0, { st with sockfd_out := st.sockfd_out ++
        [publish_method_frame env [] [] 0 0, publish_header_frame env (2 ^ 32) none] }) := by
  unfold amqp_basic_publish
  simp only [amqp_send_method, amqp_send_frame]
  rw [if_neg (not_lt.mpr (hs _ _)), if_neg (not_lt.mpr (hs _ _))]
  rw [amqp_basic_publish_loop]
  have h0 : to_int (size_t_sub (2 ^ 32) 0) = 0 := by decide
  simp only [hB, h0, lt_self_iff_false, if_false, if_true]
  simp [publish_method_frame, publish_header_frame]

/-- Counterexample to C1 as stated. With frame_max = 8 and the body [65] the
usable payload size is 0: after three rounds three empty BODY frames have been
sent and the loop is still running, and it never returns whatever the fuel.
With frame_max = 100 and a body of 2^32 bytes amqp_basic_publish returns 0
after the HEADER frame without sending any BODY frame. -/
theorem basic_publish_counterexample :
    (amqp_basic_publish ok_env 3 (fresh_state 8 []) [] [] 0 0 none [65] =
      (Res.out_of_fuel, { (fresh_state 8 []) with sockfd_out :=
        [publish_method_frame ok_env [] [] 0 0, publish_header_frame ok_env 1 none,
         body_frame ok_env [], body_frame ok_env [], body_frame ok_env []] })) ∧
    (∀ fuel, (amqp_basic_publish ok_env fuel (fresh_state 8 []) [] [] 0 0 none [65]).1 =
      Res.out_of_fuel) ∧
    (amqp_basic_publish ok_env 1 (fresh_state 100 []) [] [] 0 0 none (List.replicate (2 ^ 32) 65) =
      (Res.ret 0, { (fresh_state 100 []) with sockfd_out :=
        [publish_method_frame ok_env [] [] 0 0, publish_header_frame ok_env (2 ^ 32) none] })) := by
  refine ⟨by decide, ?_, ?_⟩
  · intro fuel
    unfold amqp_basic_publish
    simp only [amqp_send_method, amqp_send_frame]
    rw [if_neg (not_lt.mpr (ok_env_sends_succeed _ _)),
      if_neg (not_lt.mpr (ok_env_sends_succeed _ _))]
    have hu : uint32_sub (fresh_state 8 []).frame_max (HEADER_SIZE + FOOTER_SIZE) = 0 := by decide
    rw [hu]
    exact publish_loop_stuck ok_env ok_env_sends_succeed [65] (by decide) 0 (by decide) fuel _
  · exact publish_huge_body ok_env ok_env_sends_succeed (fresh_state 100 [])
      (List.replicate (2 ^ 32) 65) (List.length_replicate _ _) 0

/-! ## The handshake and the frame_max field -/

/-- Sequencing keeps frame_max when both steps keep it. -/
theorem and_then_frame_max {κ α β : Type} (r : Res α × amqp_connection_state_t κ)
    (k : α → amqp_connection_state_t κ → Res β × amqp_connection_state_t κ) (v : Nat)
    (h1 : r.2.frame_max = v) (h2 : ∀ a s, s.frame_max = v → (k a s).2.frame_max = v) :
    (Res.and_then r k).2.frame_max = v := by
  obtain ⟨res, s⟩ := r
  cases res with
  | ret a => exact h2 a s h1
  | abort => exact h1
  | blocked => exact h1
  | undefined => exact h1
  | out_of_fuel => exact h1

theorem wait_frame_step_frame_max {κ : Type} (env : Env κ) (st : amqp_connection_state_t κ)
    (fr : amqp_frame_t) :
    match wait_frame_step env st fr with
    | Sum.inl (_, st1) => st1.frame_max = st.frame_max
    | Sum.inr (st1, _) => st1.frame_max = st.frame_max := by
  unfold wait_frame_step
  by_cases hlt : st.sock_inbound_offset < st.sock_inbound_limit
  · rw [if_pos hlt]
    dsimp only
    split_ifs <;> rfl
  · rw [if_neg hlt]
    cases st.sockfd_in with
    | nil => rfl
    | cons ev rest =>
      cases ev with
      | fail errno => rfl
      | ok bytes =>
        dsimp only
        split_ifs <;> rfl

theorem wait_frame_inner_frame_max {κ : Type} (env : Env κ) :
    ∀ (fuel : Nat) (st : amqp_connection_state_t κ) (fr : amqp_frame_t),
      (wait_frame_inner env fuel st fr).2.frame_max = st.frame_max := by
  intro fuel
  induction fuel with
  | zero => intro st fr; rfl
  | succ n ih =>
    intro st fr
    rw [wait_frame_inner_succ]
    have h := wait_frame_step_frame_max env st fr
    cases hs : wait_frame_step env st fr with
    | inl res =>
      rw [hs] at h
      exact h
    | inr p =>
      obtain ⟨st2, fr2⟩ := p
      rw [hs] at h
      simp only at h ⊢
      rw [ih, h]

theorem simple_wait_frame_frame_max {κ : Type} (env : Env κ) (fuel : Nat)
    (st : amqp_connection_state_t κ) (fr : amqp_frame_t) :
    (amqp_simple_wait_frame env fuel st fr).2.frame_max = st.frame_max := by
  unfold amqp_simple_wait_frame
  cases st.first_queued_frame with
  | none => exact wait_frame_inner_frame_max env fuel st fr
  | some first =>
    dsimp only
    cases st.decoding_pool[first]? with
    | none => rfl
    | some link =>
      dsimp only
      split_ifs <;> rfl

theorem simple_wait_method_frame_max {κ : Type} (env : Env κ) (fuel : Nat)
    (st : amqp_connection_state_t κ) (expected : Nat) (output : amqp_method_t) :
    (amqp_simple_wait_method env fuel st expected output).2.frame_max = st.frame_max := by
  unfold amqp_simple_wait_method
  have h := simple_wait_frame_frame_max env fuel st env.indeterminate_frame
  generalize amqp_simple_wait_frame env fuel st env.indeterminate_frame = x at h
  obtain ⟨r, st1⟩ := x
  cases r with
  | ret a =>
    obtain ⟨status, frame⟩ := a
    dsimp only
    split_ifs <;> exact h
  | abort => exact h
  | blocked => exact h
  | undefined => exact h
  | out_of_fuel => exact h

theorem release_buffers_frame_max {κ : Type} (env : Env κ) (st : amqp_connection_state_t κ) :
    (amqp_release_buffers env st).2.frame_max = st.frame_max := by
  unfold amqp_release_buffers
  split <;> rfl

theorem maybe_release_buffers_frame_max {κ : Type} (env : Env κ)
    (st : amqp_connection_state_t κ) :
    (amqp_maybe_release_buffers env st).2.frame_max = st.frame_max := by
  unfold amqp_maybe_release_buffers
  split
  · exact release_buffers_frame_max env st
  · rfl

theorem rpc_retry_frame_max {κ : Type} (env : Env κ) (channel expected : Nat) :
    ∀ (fuel : Nat) (st : amqp_connection_state_t κ) (fr : amqp_frame_t),
      (amqp_simple_rpc_retry env fuel st channel expected fr).2.frame_max = st.frame_max := by
  intro fuel
  induction fuel with
  | zero => intro st fr; rfl
  | succ n ih =>
    intro st fr
    rw [amqp_simple_rpc_retry]
    have h := wait_frame_inner_frame_max env (n + 1) st fr
    generalize wait_frame_inner env (n + 1) st fr = x at h
    obtain ⟨r, st1⟩ := x
    simp only at h
    cases r with
    | ret a =>
      obtain ⟨status, frame⟩ := a
      simp only
      have he : (enqueue_frame st1 frame).frame_max = st1.frame_max := by
        rw [enqueue_frame_eq_set_queue]; rfl
      split_ifs
      · exact h
      · rw [ih, he, h]
      · exact h
      · exact h
    | abort => exact h
    | blocked => exact h
    | undefined => exact h
    | out_of_fuel => exact h

theorem simple_rpc_frame_max {κ : Type} (env : Env κ) (fuel : Nat)
    (st : amqp_connection_state_t κ) (channel request_id expected : Nat) (decoded : Decoded) :
    (amqp_simple_rpc env fuel st channel request_id expected decoded).2.frame_max =
      st.frame_max := by
  unfold amqp_simple_rpc amqp_send_method amqp_send_frame
  simp only
  split_ifs
  · rfl
  · rw [rpc_retry_frame_max]

theorem login_inner_frame_max {κ : Type} (env : Env κ) (fuel : Nat)
    (st : amqp_connection_state_t κ) (c : Int) (sasl_method : Nat) (vl : List (List Nat)) :
    (amqp_login_inner env fuel st c sasl_method vl).2.frame_max = st.frame_max := by
  unfold amqp_login_inner
  apply and_then_frame_max
  · rw [simple_wait_method_frame_max]; rfl
  · rintro ⟨status, method⟩ s hs
    dsimp only
    split_ifs
    · exact hs
    · split
      · split_ifs
        · exact hs
        · apply and_then_frame_max _ _ _ hs
          intro response s1 hs1
          apply and_then_frame_max _ _ _ hs1
          intro mechanism s2 hs2
          dsimp only [amqp_send_method, amqp_send_frame]
          split_ifs
          · exact hs2
          · apply and_then_frame_max
            · rw [release_buffers_frame_max]; exact hs2
            · intro _ s3 hs3
              apply and_then_frame_max
              · rw [simple_wait_method_frame_max]; exact hs3
              · rintro ⟨status2, method2⟩ s4 hs4
                dsimp only
                split_ifs
                · exact hs4
                · split
                  · split_ifs <;>
                      first
                        | exact hs4
                        | exact and_then_frame_max _ _ _
                            (by rw [release_buffers_frame_max]; exact hs4)
                            (fun _ s5 hs5 => hs5)
                  · exact hs4
      · exact hs

/-- No run of amqp_login changes the frame_max field of the connection state. -/
theorem login_frame_max {κ : Type} (env : Env κ) (fuel : Nat)
    (st : amqp_connection_state_t κ) (vhost : List Nat) (c : Int) (sasl_method : Nat)
    (vl : List (List Nat)) :
    (amqp_login env fuel st vhost c sasl_method vl).2.frame_max = st.frame_max := by
  unfold amqp_login
  apply and_then_frame_max
  · exact login_inner_frame_max env fuel st c sasl_method vl
  · intro _ s1 hs1
    apply and_then_frame_max
    · rw [simple_rpc_frame_max]; exact hs1
    · intro r s2 hs2
      split_ifs
      · exact hs2
      · apply and_then_frame_max
        · rw [maybe_release_buffers_frame_max]; exact hs2
        · intro _ s3 hs3
          apply and_then_frame_max
          · rw [simple_rpc_frame_max]; exact hs3
          · intro r2 s4 hs4
            split_ifs
            · exact hs4
            · apply and_then_frame_max
              · rw [maybe_release_buffers_frame_max]; exact hs4
              · intro _ s5 hs5
                exact hs5

/-! ## The frames of one publish -/

theorem publish_loop_done {κ : Type} (env : Env κ) (B : List Nat) (hB : B.length < 2 ^ 31)
    (u fuel : Nat) (st : amqp_connection_state_t κ) :
    amqp_basic_publish_loop env (fuel + 1) st B u B.length = (Res.ret 0, st) := by
  have hrem : to_int (size_t_sub B.length B.length) = 0 := by
    rw [size_t_sub_of_le _ _ (le_refl _) (by omega), to_int_of_lt _ (by omega)]
    omega
  rw [amqp_basic_publish_loop]
  simp only [hrem, lt_self_iff_false, if_false, if_true]

theorem publish_loop_step {κ : Type} (env : Env κ) (B : List Nat) (hB : B.length < 2 ^ 31)
    (u off : Nat) (hoff : off < B.length) (fuel : Nat) (st : amqp_connection_state_t κ) :
    amqp_basic_publish_loop env (fuel + 1) st B u off =
      if env.send_status st.sockfd_out
          (body_fragment_frame env ((B.drop off).take (min u (B.length - off)))) < 0 then
        (Res.ret (env.send_status st.sockfd_out
          (body_fragment_frame env ((B.drop off).take (min u (B.length - off))))),
         sent st (body_fragment_frame env ((B.drop off).take (min u (B.length - off)))))
      else
        amqp_basic_publish_loop env fuel
          (sent st (body_fragment_frame env ((B.drop off).take (min u (B.length - off)))))
          B u (off + min u (B.length - off)) := by
  have hrem : to_int (size_t_sub B.length off) = ((B.length - off : Nat) : Int) := by
    rw [size_t_sub_of_le _ _ (by omega) (by omega), to_int_of_lt _ (by omega)]
  have hsz : to_size_t ((B.length - off : Nat) : Int) = B.length - off :=
    to_size_t_natCast _ (by omega)
  have hlen_eq : (if to_size_t ((B.length - off : Nat) : Int) ≥ u then u
      else to_size_t ((B.length - off : Nat) : Int)) = min u (B.length - off) := by
    rw [hsz]
    split <;> omega
  have hadd : size_t_add off (min u (B.length - off)) = off + min u (B.length - off) := by
    apply size_t_add_of_lt
    omega
  have hnn : ¬ (((B.length - off : Nat) : Int) < 0) := by omega
  have hnz : ¬ (((B.length - off : Nat) : Int) = 0) := by omega
  rw [amqp_basic_publish_loop]
  simp only [hrem, hnn, hnz, if_false, hlen_eq, hadd, amqp_send_frame]
  rfl

theorem errnos_positive_tail (e : ReadEvent) (rest : List ReadEvent)
    (h : errnos_positive (e :: rest)) : errnos_positive rest :=
  fun errno hmem => h errno (List.mem_cons_of_mem _ hmem)

/-- One round of the reader: a returned status is at most 0, or it is 1 with a
frame whose type is not the sentinel. -/
theorem wait_frame_step_status {κ : Type} (env : Env κ) (st : amqp_connection_state_t κ)
    (fr : amqp_frame_t) (hpos : errnos_positive st.sockfd_in) :
    match wait_frame_step env st fr with
    | Sum.inl (r, st1) => errnos_positive st1.sockfd_in ∧
        ∀ status f, r = Res.ret (status, f) → status ≤ 0 ∨ (status = 1 ∧ f.frame_type ≠ 0)
    | Sum.inr (st1, _) => errnos_positive st1.sockfd_in := by
  unfold wait_frame_step
  by_cases hlt : st.sock_inbound_offset < st.sock_inbound_limit
  · rw [if_pos hlt]
    dsimp only
    split_ifs with h1 h2 h3
    · refine ⟨hpos, ?_⟩
      intro status f h
      injection h with h
      injection h with ha hb
      left; omega
    · refine ⟨hpos, ?_⟩
      intro status f h
      injection h with h
      injection h with ha hb
      right
      subst hb
      exact ⟨ha.symm, by simpa using h2⟩
    · refine ⟨hpos, ?_⟩
      intro status f h
      cases h
    · exact hpos
  · rw [if_neg hlt]
    cases hin : st.sockfd_in with
    | nil =>
      refine ⟨hpos, ?_⟩
      intro status f h
      cases h
    | cons ev rest =>
      rw [hin] at hpos
      cases ev with
      | fail errno =>
        refine ⟨errnos_positive_tail _ _ hpos, ?_⟩
        intro status f h
        injection h with h
        injection h with ha hb
        have := hpos errno (List.mem_cons_self _ _)
        left; omega
      | ok bytes =>
        dsimp only
        split_ifs with hz
        · refine ⟨errnos_positive_tail _ _ hpos, ?_⟩
          intro status f h
          injection h with h
          injection h with ha hb
          left; omega
        · exact errnos_positive_tail _ _ hpos

theorem wait_frame_inner_status {κ : Type} (env : Env κ) :
    ∀ (fuel : Nat) (st : amqp_connection_state_t κ) (fr : amqp_frame_t),
      errnos_positive st.sockfd_in →
      errnos_positive (wait_frame_inner env fuel st fr).2.sockfd_in ∧
      ∀ status f, (wait_frame_inner env fuel st fr).1 = Res.ret (status, f) →
        status ≤ 0 ∨ (status = 1 ∧ f.frame_type ≠ 0) := by
  intro fuel
  induction fuel with
  | zero =>
    intro st fr hpos
    refine ⟨hpos, ?_⟩
    intro status f h
    cases h
  | succ n ih =>
    intro st fr hpos
    rw [wait_frame_inner_succ]
    have h := wait_frame_step_status env st fr hpos
    cases hs : wait_frame_step env st fr with
    | inl res =>
      obtain ⟨r, st1⟩ := res
      rw [hs] at h
      exact h
    | inr p =>
      obtain ⟨st2, fr2⟩ := p
      rw [hs] at h
      exact ih st2 fr2 h

theorem no_sentinel_nil : no_sentinel [] := by
  intro f hf
  cases hf

theorem queue_holds_of_same_queue {κ : Type} (s t : amqp_connection_state_t κ)
    (q : List amqp_frame_t) (h : same_queue s t) (hq : queue_holds t q) : queue_holds s q := by
  unfold queue_holds at hq ⊢
  rw [h.1, h.2.1, h.2.2]
  exact hq

theorem enqueue_frame_in {κ : Type} (st : amqp_connection_state_t κ) (f : amqp_frame_t) :
    (enqueue_frame st f).sockfd_in = st.sockfd_in := by
  rw [enqueue_frame_eq_set_queue]
  rfl

/-- The retry block of the RPC, for any outcome: the queue it leaves holds the
frames that were queued before followed by the frames it parked; when failing
reads set a positive errno, no parked frame and no frame answered has the
sentinel type. -/
theorem rpc_retry_inv {κ : Type} (env : Env κ) (channel expected : Nat) :
    ∀ (fuel : Nat) (st : amqp_connection_state_t κ) (fr : amqp_frame_t) (q : List amqp_frame_t),
      queue_holds st q →
      ∃ parked,
        queue_holds (amqp_simple_rpc_retry env fuel st channel expected fr).2 (q ++ parked) ∧
        (errnos_positive st.sockfd_in →
          no_sentinel parked ∧
          errnos_positive (amqp_simple_rpc_retry env fuel st channel expected fr).2.sockfd_in ∧
          ∀ rep, (amqp_simple_rpc_retry env fuel st channel expected fr).1 = Res.ret rep →
            rep.reply_type ≠ AMQP_RESPONSE_LIBRARY_EXCEPTION →
            ∃ f, f.frame_type ≠ 0 ∧ awaited_reply env channel expected f ∧
              rep = reply_of expected f) := by
  intro fuel
  induction fuel with
  | zero =>
    intro st fr q hq
    refine ⟨[], by simpa [amqp_simple_rpc_retry] using hq, ?_⟩
    intro hpos
    refine ⟨no_sentinel_nil, hpos, ?_⟩
    intro rep h
    simp [amqp_simple_rpc_retry] at h
  | succ n ih =>
    intro st fr q hq
    have hsq := wait_frame_inner_same_queue env (n + 1) st fr
    have hst := wait_frame_inner_status env (n + 1) st fr
    rw [amqp_simple_rpc_retry]
    cases hw : wait_frame_inner env (n + 1) st fr with
    | mk r st1 =>
      rw [hw] at hsq hst
      simp only at hsq hst
      have hq1 : queue_holds st1 q := queue_holds_of_same_queue _ _ _ hsq hq
      cases r with
      | ret p =>
        obtain ⟨status, f⟩ := p
        dsimp only
        by_cases h0 : status ≤ 0
        · rw [if_pos h0]
          refine ⟨[], by simpa using hq1, ?_⟩
          intro hpos
          refine ⟨no_sentinel_nil, (hst hpos).1, ?_⟩
          intro rep h hne
          injection h with h
          rw [← h] at hne
          exact absurd rfl hne
        · rw [if_neg h0]
          by_cases hrep : is_rpc_reply env f channel expected = true
          · simp only [hrep, Bool.not_true, Bool.false_eq_true, if_false]
            refine ⟨[], by simpa using hq1, ?_⟩
            intro hpos
            refine ⟨no_sentinel_nil, (hst hpos).1, ?_⟩
            intro rep h _
            injection h with h
            refine ⟨f, ?_, (is_rpc_reply_iff env f channel expected).mp hrep, ?_⟩
            · rcases (hst hpos).2 status f rfl with hle | ⟨_, hne⟩
              · exact absurd hle h0
              · exact hne
            · rw [← h]
              rfl
          · have hrep2 : is_rpc_reply env f channel expected = false := by simpa using hrep
            simp only [hrep2, Bool.not_false, if_true]
            obtain ⟨parked, hqp, hrest⟩ := ih (enqueue_frame st1 f) f (q ++ [f])
              (queue_holds_enqueue st1 q f hq1)
            refine ⟨f :: parked, by simpa using hqp, ?_⟩
            intro hpos
            have hpos1 := (hst hpos).1
            rw [← enqueue_frame_in st1 f] at hpos1
            obtain ⟨hns, hfin, hreply⟩ := hrest hpos1
            refine ⟨?_, hfin, hreply⟩
            intro g hg
            rcases List.mem_cons.mp hg with rfl | hg
            · rcases (hst hpos).2 status g rfl with hle | ⟨_, hne⟩
              · exact absurd hle h0
              · exact hne
            · exact hns g hg
      | abort =>
        refine ⟨[], by simpa using hq1, ?_⟩
        intro hpos
        refine ⟨no_sentinel_nil, (hst hpos).1, ?_⟩
        intro rep h
        cases h
      | blocked =>
        refine ⟨[], by simpa using hq1, ?_⟩
        intro hpos
        refine ⟨no_sentinel_nil, (hst hpos).1, ?_⟩
        intro rep h
        cases h
      | undefined =>
        refine ⟨[], by simpa using hq1, ?_⟩
        intro hpos
        refine ⟨no_sentinel_nil, (hst hpos).1, ?_⟩
        intro rep h
        cases h
      | out_of_fuel =>
        refine ⟨[], by simpa using hq1, ?_⟩
        intro hpos
        refine ⟨no_sentinel_nil, (hst hpos).1, ?_⟩
        intro rep h
        cases h

theorem send_method_queue_holds {κ : Type} (env : Env κ) (st : amqp_connection_state_t κ)
    (channel id : Nat) (decoded : Decoded) (q : List amqp_frame_t) (hq : queue_holds st q) :
    queue_holds (amqp_send_method env st channel id decoded).2 q := hq

/-- The whole RPC, for any outcome: see `rpc_retry_inv`. -/
theorem simple_rpc_inv {κ : Type} (env : Env κ) (fuel : Nat) (st : amqp_connection_state_t κ)
    (channel request_id expected : Nat) (decoded : Decoded) (q : List amqp_frame_t)
    (hq : queue_holds st q) :
    ∃ parked,
      queue_holds (amqp_simple_rpc env fuel st channel request_id expected decoded).2
        (q ++ parked) ∧
      (errnos_positive st.sockfd_in →
        no_sentinel parked ∧
        errnos_positive
          (amqp_simple_rpc env fuel st channel request_id expected decoded).2.sockfd_in ∧
        ∀ rep, (amqp_simple_rpc env fuel st channel request_id expected decoded).1 = Res.ret rep →
          rep.reply_type ≠ AMQP_RESPONSE_LIBRARY_EXCEPTION →
          ∃ f, f.frame_type ≠ 0 ∧ awaited_reply env channel expected f ∧
            rep = reply_of expected f) := by
  unfold amqp_simple_rpc
  dsimp only
  split_ifs with hs
  · refine ⟨[], by simpa using send_method_queue_holds env st channel request_id decoded q hq, ?_⟩
    intro hpos
    refine ⟨no_sentinel_nil, hpos, ?_⟩
    intro rep h hne
    injection h with h
    rw [← h] at hne
    exact absurd rfl hne
  · exact rpc_retry_inv env channel expected fuel _ env.indeterminate_frame q
      (send_method_queue_holds env st channel request_id decoded q hq)

theorem reads_bounded_tail (cap : Nat) (e : ReadEvent) (rest : List ReadEvent)
    (h : reads_bounded cap (e :: rest)) : reads_bounded cap rest :=
  fun bytes hmem => h bytes (List.mem_cons_of_mem _ hmem)

/-- One round of the reader keeps the cursor invariant, the capacity of the
buffer and the bound on the reads still to come. -/
theorem wait_frame_step_cursor {κ : Type} (env : Env κ) (hc : codec_bounded env)
    (st : amqp_connection_state_t κ) (fr : amqp_frame_t)
    (hinv : cursor_inv st)
    (hr : reads_bounded st.sock_inbound_buffer.length st.sockfd_in) :
    match wait_frame_step env st fr with
    | Sum.inl (_, st1) => cursor_inv st1 ∧
        st1.sock_inbound_buffer.length = st.sock_inbound_buffer.length ∧
        reads_bounded st1.sock_inbound_buffer.length st1.sockfd_in
    | Sum.inr (st1, _) => cursor_inv st1 ∧
        st1.sock_inbound_buffer.length = st.sock_inbound_buffer.length ∧
        reads_bounded st1.sock_inbound_buffer.length st1.sockfd_in := by
  obtain ⟨h0, h1, h2⟩ := hinv
  unfold wait_frame_step
  by_cases hlt : st.sock_inbound_offset < st.sock_inbound_limit
  · rw [if_pos hlt]
    have hb := hc st.decoder ((st.sock_inbound_buffer.drop st.sock_inbound_offset.toNat).take
      (st.sock_inbound_limit - st.sock_inbound_offset).toNat) fr
    simp only [List.length_take, List.length_drop] at hb
    have hb2 : (env.amqp_handle_input st.decoder
        ((st.sock_inbound_buffer.drop st.sock_inbound_offset.toNat).take
          (st.sock_inbound_limit - st.sock_inbound_offset).toNat) fr).1 ≤
        st.sock_inbound_limit - st.sock_inbound_offset := by
      refine le_trans hb ?_
      have : min (st.sock_inbound_limit - st.sock_inbound_offset).toNat
          (st.sock_inbound_buffer.length - st.sock_inbound_offset.toNat) ≤
          (st.sock_inbound_limit - st.sock_inbound_offset).toNat := min_le_left _ _
      have h3 : ((st.sock_inbound_limit - st.sock_inbound_offset).toNat : Int) =
          st.sock_inbound_limit - st.sock_inbound_offset := Int.toNat_of_nonneg (by omega)
      omega
    dsimp only
    split_ifs with g1 g2 g3
    · exact ⟨⟨h0, h1, h2⟩, rfl, hr⟩
    · refine ⟨⟨?_, ?_, h2⟩, rfl, hr⟩
      · show 0 ≤ st.sock_inbound_offset + _
        omega
      · exact Int.add_le_of_le_sub_left hb2
    · refine ⟨⟨?_, ?_, h2⟩, rfl, hr⟩
      · show 0 ≤ st.sock_inbound_offset + _
        omega
      · exact Int.add_le_of_le_sub_left hb2
    · refine ⟨⟨?_, ?_, h2⟩, rfl, hr⟩
      · show 0 ≤ st.sock_inbound_offset + _
        omega
      · exact Int.add_le_of_le_sub_left hb2
  · rw [if_neg hlt]
    cases hin : st.sockfd_in with
    | nil => exact ⟨⟨h0, h1, h2⟩, rfl, hr⟩
    | cons ev rest =>
      rw [hin] at hr
      cases ev with
      | fail errno => exact ⟨⟨h0, h1, h2⟩, rfl, reads_bounded_tail _ _ _ hr⟩
      | ok bytes =>
        have hlen := hr bytes (List.mem_cons_self _ _)
        have hl : (bytes ++ st.sock_inbound_buffer.drop bytes.length).length =
            st.sock_inbound_buffer.length := by
          rw [List.length_append, List.length_drop]
          omega
        dsimp only
        split_ifs with hz
        · refine ⟨⟨h0, h1, ?_⟩, hl, ?_⟩
          · show st.sock_inbound_limit ≤ ((bytes ++ _).length : Int)
            rw [hl]
            exact h2
          · show reads_bounded (bytes ++ _).length rest
            rw [hl]
            exact reads_bounded_tail _ _ _ hr
        · refine ⟨⟨le_refl _, ?_, ?_⟩, hl, ?_⟩
          · show (0 : Int) ≤ (bytes.length : Int)
            omega
          · show (bytes.length : Int) ≤ ((bytes ++ _).length : Int)
            rw [hl]
            exact_mod_cast hlen
          · show reads_bounded (bytes ++ _).length rest
            rw [hl]
            exact reads_bounded_tail _ _ _ hr

theorem wait_frame_inner_cursor {κ : Type} (env : Env κ) (hc : codec_bounded env) :
    ∀ (fuel : Nat) (st : amqp_connection_state_t κ) (fr : amqp_frame_t),
      cursor_inv st → reads_bounded st.sock_inbound_buffer.length st.sockfd_in →
      cursor_inv (wait_frame_inner env fuel st fr).2 ∧
      (wait_frame_inner env fuel st fr).2.sock_inbound_buffer.length =
        st.sock_inbound_buffer.length ∧
      reads_bounded (wait_frame_inner env fuel st fr).2.sock_inbound_buffer.length
        (wait_frame_inner env fuel st fr).2.sockfd_in := by
  intro fuel
  induction fuel with
  | zero =>
    intro st fr hinv hr
    exact ⟨hinv, rfl, hr⟩
  | succ n ih =>
    intro st fr hinv hr
    rw [wait_frame_inner_succ]
    have h := wait_frame_step_cursor env hc st fr hinv hr
    cases hs : wait_frame_step env st fr with
    | inl res =>
      obtain ⟨r, st1⟩ := res
      rw [hs] at h
      exact h
    | inr p =>
      obtain ⟨st2, fr2⟩ := p
      rw [hs] at h
      obtain ⟨a, b, c⟩ := h
      obtain ⟨a2, b2, c2⟩ := ih st2 fr2 a c
      exact ⟨a2, b2.trans b, c2⟩

theorem simple_wait_frame_empty {κ : Type} (env : Env κ) (fuel : Nat)
    (st : amqp_connection_state_t κ) (fr : amqp_frame_t) (h : queue_holds st []) :
    amqp_simple_wait_frame env fuel st fr = wait_frame_inner env fuel st fr := by
  unfold queue_holds at h
  obtain ⟨hf, _⟩ := (chain_nil _ _ _ _).mp h
  unfold amqp_simple_wait_frame
  rw [hf]

theorem simple_wait_frame_queue {κ : Type} (env : Env κ) (fuel : Nat)
    (st : amqp_connection_state_t κ) (fr : amqp_frame_t) (q : List amqp_frame_t)
    (h : queue_holds st q) :
    queue_holds (amqp_simple_wait_frame env fuel st fr).2 q.tail := by
  cases q with
  | nil =>
    rw [simple_wait_frame_empty env fuel st fr h]
    exact queue_holds_of_same_queue _ _ _ (wait_frame_inner_same_queue env fuel st fr) h
  | cons x rest =>
    obtain ⟨st1, h1, h2, _⟩ := wait_frame_dequeue env fuel st fr x rest h
    rw [h1]
    exact h2

theorem queue_holds_well_formed {κ : Type} (st : amqp_connection_state_t κ)
    (q : List amqp_frame_t) (h : queue_holds st q) : queue_well_formed st := by
  unfold queue_holds at h
  cases q with
  | nil =>
    obtain ⟨hf, hl⟩ := (chain_nil _ _ _ _).mp h
    exact ⟨fun _ => hl, fun hne => absurd hf hne⟩
  | cons x rest =>
    obtain ⟨a, l, hp, _, _, _⟩ := (chain_cons _ _ _ _ _ _).mp h
    obtain ⟨b, lb, hlast, hget, hnext⟩ := chain_last _ _ _ _ _ _ h
    refine ⟨fun hf => ?_, fun _ => ⟨x :: rest, b, lb, ?_, hlast, hget, hnext⟩⟩
    · rw [hf] at hp
      cases hp
    · rw [← hlast]
      exact h

theorem ok_env_codec_bounded : codec_bounded ok_env := by
  intro d buf fr
  cases buf <;> simp [ok_env, toy_env, toy_handle_input]

theorem release_buffers_of_empty {κ : Type} (env : Env κ) (st : amqp_connection_state_t κ)
    (h : st.first_queued_frame = none) :
    amqp_release_buffers env st = (Res.ret (), released env st) := by
  unfold amqp_release_buffers released
  simp [h]

theorem maybe_release_buffers_of_empty {κ : Type} (env : Env κ)
    (st : amqp_connection_state_t κ) (h : st.first_queued_frame = none) :
    amqp_maybe_release_buffers env st = (Res.ret (), released env st) := by
  unfold amqp_maybe_release_buffers
  rw [if_pos h, release_buffers_of_empty env st h]

theorem send_method_eq {κ : Type} (env : Env κ) (st : amqp_connection_state_t κ)
    (channel id : Nat) (decoded : Decoded) :
    amqp_send_method env st channel id decoded =
      (env.send_status st.sockfd_out (method_request env channel id decoded),
        sent st (method_request env channel id decoded)) := rfl

theorem simple_wait_method_state {κ : Type} (env : Env κ) (fuel : Nat)
    (st : amqp_connection_state_t κ) (expected : Nat) (output : amqp_method_t) :
    (amqp_simple_wait_method env fuel st expected output).2 =
      (amqp_simple_wait_frame env fuel st env.indeterminate_frame).2 := by
  unfold amqp_simple_wait_method
  generalize amqp_simple_wait_frame env fuel st env.indeterminate_frame = x
  obtain ⟨r, st1⟩ := x
  cases r with
  | ret a =>
    obtain ⟨status, frame⟩ := a
    dsimp only
    split_ifs <;> rfl
  | abort => rfl
  | blocked => rfl
  | undefined => rfl
  | out_of_fuel => rfl

/-- Waiting for a method on an empty queue reads from the socket: the queue
stays empty and nothing is written. -/
theorem simple_wait_method_of_empty {κ : Type} (env : Env κ) (fuel : Nat)
    (st : amqp_connection_state_t κ) (expected : Nat) (output : amqp_method_t)
    (h : st.first_queued_frame = none) :
    (amqp_simple_wait_method env fuel st expected output).2.first_queued_frame = none ∧
    (amqp_simple_wait_method env fuel st expected output).2.sockfd_out = st.sockfd_out := by
  rw [simple_wait_method_state]
  unfold amqp_simple_wait_frame
  rw [h]
  dsimp only
  exact ⟨(wait_frame_inner_same_queue env fuel st env.indeterminate_frame).2.1.trans h,
    wait_frame_inner_out env fuel st env.indeterminate_frame⟩

theorem wait_frame_inner_of_empty {κ : Type} (env : Env κ) (fuel : Nat)
    (st : amqp_connection_state_t κ) (fr : amqp_frame_t) (r : Res (Int × amqp_frame_t))
    (t : amqp_connection_state_t κ) (hw : wait_frame_inner env fuel st fr = (r, t))
    (h : st.first_queued_frame = none) :
    t.first_queued_frame = none ∧ t.sockfd_out = st.sockfd_out := by
  have h1 := (wait_frame_inner_same_queue env fuel st fr).2.1
  have h2 := wait_frame_inner_out env fuel st fr
  rw [hw] at h1 h2
  exact ⟨h1.trans h, h2⟩

/-- The RPC whose awaited reply is the first frame the reader returns. -/
theorem simple_rpc_direct_reply {κ : Type} (env : Env κ) (fuel : Nat)
    (st : amqp_connection_state_t κ) (channel request_id expected : Nat) (decoded : Decoded)
    (reply : amqp_frame_t) (t : amqp_connection_state_t κ)
    (hsend : 0 ≤ env.send_status st.sockfd_out (method_request env channel request_id decoded))
    (hread : wait_frame_inner env fuel
      (sent st (method_request env channel request_id decoded)) env.indeterminate_frame =
        (Res.ret (1, reply), t))
    (hreply : awaited_reply env channel expected reply) :
    amqp_simple_rpc env fuel st channel request_id expected decoded =
      (Res.ret (reply_of expected reply), t) := by
  unfold amqp_simple_rpc
  rw [send_method_eq]
  dsimp only
  rw [if_neg (by omega)]
  cases fuel with
  | zero => simp [wait_frame_inner] at hread
  | succ n =>
    rw [amqp_simple_rpc_retry, hread]
    have hrep : is_rpc_reply env reply channel expected = true :=
      (is_rpc_reply_iff env reply channel expected).mpr hreply
    simp [hrep, reply_of]

/-! ## The handshake happy path -/

/-- C11: the handshake happy path. Every send succeeds, the queue is empty at
the start, and the server answers CONNECTION.START with the library's version,
CONNECTION.TUNE (frame_max s), CONNECTION.OPEN_OK on channel 0 and
CHANNEL.OPEN_OK on channel 1, each being what the wait at that point of the
run returns. Then amqp_login with PLAIN credentials (user, pw without NUL
bytes) returns reply_type NORMAL with library_errno 0 and an empty reply, and
has written, in this order and nothing else: the 8-byte preamble
'A','M','Q','P',1,1,Major,Minor; START_OK (no client properties, mechanism
"PLAIN", response 00 user 00 pw, locale "en_US") on channel 0; TUNE_OK on
channel 0; CONNECTION.OPEN (vhost, no capabilities, insist 1) on channel 0;
CHANNEL.OPEN on channel 1. -/
theorem login_happy_path {κ : Type} (env : Env κ) (hs : sends_succeed env) (fuel : Nat)
    (st : amqp_connection_state_t κ) (vhost : List Nat) (c : Int)
    (user pw junk1 junk2 mechanisms : List Nat) (id1 id2 channel_max s heartbeat : Nat)
    (open_ok channel_open_ok : amqp_frame_t) (st1 st2 st3 st4 : amqp_connection_state_t κ)
    (hu : ∀ b ∈ user, b ≠ 0) (hp : ∀ b ∈ pw, b ≠ 0)
    (hq : st.first_queued_frame = none)
    (hstart : amqp_simple_wait_method env fuel (amqp_send_header env st)
      env.AMQP_CONNECTION_START_METHOD env.indeterminate_method =
        (Res.ret (1, start_method env id1 mechanisms), st1))
    (htune : amqp_simple_wait_method env fuel
      (released env (sent st1 (method_request env 0 env.AMQP_CONNECTION_START_OK_METHOD
        (start_ok_record [80, 76, 65, 73, 78] (0 :: user ++ 0 :: pw)))))
      env.AMQP_CONNECTION_TUNE_METHOD (start_method env id1 mechanisms) =
        (Res.ret (1, { id := id2, decoded := Decoded.connection_tune channel_max s heartbeat }),
          st2))
    (hs32 : s < 2 ^ 32)
    (hopen : wait_frame_inner env fuel
      (sent (released env (sent st2 (method_request env 0 env.AMQP_CONNECTION_TUNE_OK_METHOD
          (Decoded.connection_tune_ok 1
            (if s = 0 then to_uint32 c else min (to_uint32 c) s) 0))))
        (method_request env 0 env.AMQP_CONNECTION_OPEN_METHOD
          (Decoded.connection_open (amqp_cstring_bytes vhost) [] 1)))
      env.indeterminate_frame = (Res.ret (1, open_ok), st3))
    (hopen_ok : open_ok.frame_type = env.AMQP_FRAME_METHOD ∧ open_ok.channel = 0 ∧
      open_ok.payload.as_method.id = env.AMQP_CONNECTION_OPEN_OK_METHOD)
    (hchan : wait_frame_inner env fuel
      (sent (released env st3)
        (method_request env 1 env.AMQP_CHANNEL_OPEN_METHOD (Decoded.channel_open [])))
      env.indeterminate_frame = (Res.ret (1, channel_open_ok), st4))
    (hchan_ok : channel_open_ok.frame_type = env.AMQP_FRAME_METHOD ∧
      channel_open_ok.channel = 1 ∧
      channel_open_ok.payload.as_method.id = env.AMQP_CHANNEL_OPEN_OK_METHOD) :
    amqp_login env fuel st vhost c AMQP_SASL_METHOD_PLAIN
        [user ++ 0 :: junk1, pw ++ 0 :: junk2] =
      (Res.ret { reply_type := AMQP_RESPONSE_NORMAL
                 reply := { id := 0, decoded := Decoded.null }
                 library_errno := 0 }, released env st4) ∧
    (released env st4).sockfd_out = st.sockfd_out ++
      [Output.raw [65, 77, 81, 80, 1, 1,
         env.AMQP_PROTOCOL_VERSION_MAJOR, env.AMQP_PROTOCOL_VERSION_MINOR],
       request_frame env 0 env.AMQP_CONNECTION_START_OK_METHOD
         (Decoded.connection_start_ok 0 [80, 76, 65, 73, 78] (0 :: user ++ 0 :: pw)
           [101, 110, 95, 85, 83]),
       request_frame env 0 env.AMQP_CONNECTION_TUNE_OK_METHOD
         (Decoded.connection_tune_ok 1 (if s = 0 then to_uint32 c else min (to_uint32 c) s) 0),
       request_frame env 0 env.AMQP_CONNECTION_OPEN_METHOD
         (Decoded.connection_open (amqp_cstring_bytes vhost) [] 1),
       request_frame env 1 env.AMQP_CHANNEL_OPEN_METHOD (Decoded.channel_open [])] := by
  -- the queue stays empty and the log grows by the frames sent
  have e1 := simple_wait_method_of_empty env fuel (amqp_send_header env st)
    env.AMQP_CONNECTION_START_METHOD env.indeterminate_method hq
  rw [hstart] at e1
  obtain ⟨q1, o1⟩ := e1
  simp only at q1 o1
  have e2 := simple_wait_method_of_empty env fuel
    (released env (sent st1 (method_request env 0 env.AMQP_CONNECTION_START_OK_METHOD
      (start_ok_record [80, 76, 65, 73, 78] (0 :: user ++ 0 :: pw)))))
    env.AMQP_CONNECTION_TUNE_METHOD (start_method env id1 mechanisms) q1
  rw [htune] at e2
  obtain ⟨q2, o2⟩ := e2
  simp only at q2 o2
  obtain ⟨q3, o3⟩ := wait_frame_inner_of_empty env fuel _ _ _ _ hopen q2
  obtain ⟨q4, o4⟩ := wait_frame_inner_of_empty env fuel _ _ _ _ hchan q3
  -- the handshake
  have hinner : amqp_login_inner env fuel st c AMQP_SASL_METHOD_PLAIN
      [user ++ 0 :: junk1, pw ++ 0 :: junk2] =
      (Res.ret 1, released env (sent st2 (method_request env 0
        env.AMQP_CONNECTION_TUNE_OK_METHOD (Decoded.connection_tune_ok 1
          (if s = 0 then to_uint32 c else min (to_uint32 c) s) 0)))) := by
    unfold amqp_login_inner
    simp only [hstart, Res.and_then, sasl_response_plain env user pw junk1 junk2 [] hu hp,
      start_method, show sasl_method_name AMQP_SASL_METHOD_PLAIN =
        Res.ret [80, 76, 65, 73, 78] from rfl, send_method_eq]
    simp only [show ¬ ((1 : Int) ≤ 0) by decide, if_false, ne_eq, not_true_eq_false, or_self,
      not_lt.mpr (hs _ _)]
    rw [release_buffers_of_empty env (sent st1 _) q1]
    unfold start_ok_record start_method at htune
    simp only [htune, show ¬ ((1 : Int) ≤ 0) by decide, if_false, Nat.mod_eq_of_lt hs32]
    rw [negotiated_frame_max c s hs32]
    rw [release_buffers_of_empty env (sent st2 _) q2]
  have hopen2 := simple_rpc_direct_reply env fuel _ 0 env.AMQP_CONNECTION_OPEN_METHOD
    env.AMQP_CONNECTION_OPEN_OK_METHOD (Decoded.connection_open (amqp_cstring_bytes vhost) [] 1)
    open_ok st3 (hs _ _) hopen ⟨hopen_ok.1, hopen_ok.2.1, Or.inl hopen_ok.2.2⟩
  have hchan2 := simple_rpc_direct_reply env fuel (released env st3) 1
    env.AMQP_CHANNEL_OPEN_METHOD
    env.AMQP_CHANNEL_OPEN_OK_METHOD (Decoded.channel_open [])
    channel_open_ok st4 (hs _ _) hchan ⟨hchan_ok.1, hchan_ok.2.1, Or.inl hchan_ok.2.2⟩
  constructor
  · unfold amqp_login
    simp only [hinner, Res.and_then, hopen2, reply_of, hopen_ok.2.2, if_true, ne_eq,
      not_true_eq_false, if_false, maybe_release_buffers_of_empty env st3 q3, hchan2,
      hchan_ok.2.2, maybe_release_buffers_of_empty env st4 q4]
  · show st4.sockfd_out = _
    rw [o4]
    show st3.sockfd_out ++ _ = _
    rw [o3]
    show (st2.sockfd_out ++ _) ++ _ ++ _ = _
    rw [o2]
    show ((st1.sockfd_out ++ _) ++ _) ++ _ ++ _ = _
    rw [o1]
    simp [amqp_send_header, request_frame, method_request, start_ok_record]

/-- Witness of C11: the toy server answers START 8.0, TUNE 65536, OPEN_OK and
CHANNEL.OPEN_OK; login with "user"/"pw" on vhost "/" returns NORMAL after the
five writes. -/
theorem login_happy_path_witness :
    (amqp_login ok_env 6 (fresh_state 131072 [ReadEvent.ok [1, 2, 3, 4]]) [47, 0] 131072
        AMQP_SASL_METHOD_PLAIN user_pw).1 =
      Res.ret { reply_type := AMQP_RESPONSE_NORMAL
                reply := { id := 0, decoded := Decoded.null }
                library_errno := 0 } ∧
    (amqp_login ok_env 6 (fresh_state 131072 [ReadEvent.ok [1, 2, 3, 4]]) [47, 0] 131072
        AMQP_SASL_METHOD_PLAIN user_pw).2.sockfd_out =
      [Output.raw [65, 77, 81, 80, 1, 1, 8, 0],
       request_frame ok_env 0 0x000A000B
         (Decoded.connection_start_ok 0 [80, 76, 65, 73, 78] [0, 117, 115, 101, 114, 0, 112, 119]
           [101, 110, 95, 85, 83]),
       request_frame ok_env 0 0x000A001F (Decoded.connection_tune_ok 1 65536 0),
       request_frame ok_env 0 0x000A0028 (Decoded.connection_open [47] [] 1),
       request_frame ok_env 1 0x0014000A (Decoded.channel_open [])] :=
  have h := login_happy_path ok_env ok_env_sends_succeed 6
    (fresh_state 131072 [ReadEvent.ok [1, 2, 3, 4]]) [47, 0] 131072
    [117, 115, 101, 114] [112, 119] [] [] [80, 76, 65, 73, 78] 0x000A000A 0x000A001E 0 65536 0
    (toy_frame 3) (toy_frame 4) _ _ _ _ (by decide) (by decide) rfl rfl rfl (by decide)
    rfl (by decide) rfl (by decide)
  ⟨congrArg Prod.fst h.1, (congrArg (fun x => x.2.sockfd_out) h.1).trans h.2⟩

/-! ## Draining the queue -/

/-- C12: amqp_simple_wait_frame drains the queue before the reader. When the
queue holds head :: rest it returns status 1 with `head`, the queue then holds
`rest` in the same order, and the reader part of the connection (buffer,
offset and limit cursors, decoder, pending reads), the output log and frame_max
are unchanged: no codec call, no read. When the queue is empty its result is
that of wait_frame_inner. -/
theorem simple_wait_frame_drains_queue_first {κ : Type} (env : Env κ) (fuel : Nat)
    (st : amqp_connection_state_t κ) (decoded_frame : amqp_frame_t) :
    (∀ (head : amqp_frame_t) (rest : List amqp_frame_t), queue_holds st (head :: rest) →
      ∃ st1, amqp_simple_wait_frame env fuel st decoded_frame = (Res.ret (1, head), st1) ∧
        queue_holds st1 rest ∧ same_reader st1 st ∧ st1.sockfd_out = st.sockfd_out ∧
        st1.frame_max = st.frame_max) ∧
    (queue_holds st [] →
      amqp_simple_wait_frame env fuel st decoded_frame =
        wait_frame_inner env fuel st decoded_frame) := by
  constructor
  · intro head rest h
    obtain ⟨st1, h1, h2, h3, h4⟩ := wait_frame_dequeue env fuel st decoded_frame head rest h
    refine ⟨st1, h1, h2, h3, h4, ?_⟩
    have := simple_wait_frame_frame_max env fuel st decoded_frame
    rw [h1] at this
    exact this
  · exact simple_wait_frame_empty env fuel st decoded_frame

/-- Witness of C12: two frames are queued and a read is pending; the call
returns the first queued frame and leaves the second one queued. -/
theorem simple_wait_frame_drains_queue_first_witness :
    queue_holds (enqueue_frame (enqueue_frame (fresh_state 131072 [ReadEvent.ok [3]])
      (toy_frame 6)) (toy_frame 8)) [toy_frame 6, toy_frame 8] ∧
    ∃ st1, amqp_simple_wait_frame ok_env 5
        (enqueue_frame (enqueue_frame (fresh_state 131072 [ReadEvent.ok [3]])
          (toy_frame 6)) (toy_frame 8)) sentinel_frame = (Res.ret (1, toy_frame 6), st1) ∧
      queue_holds st1 [toy_frame 8] ∧
      same_reader st1 (enqueue_frame (enqueue_frame (fresh_state 131072 [ReadEvent.ok [3]])
        (toy_frame 6)) (toy_frame 8)) ∧
      st1.sockfd_out = (enqueue_frame (enqueue_frame (fresh_state 131072 [ReadEvent.ok [3]])
        (toy_frame 6)) (toy_frame 8)).sockfd_out ∧
      st1.frame_max = (enqueue_frame (enqueue_frame (fresh_state 131072 [ReadEvent.ok [3]])
        (toy_frame 6)) (toy_frame 8)).frame_max :=
  ⟨by decide,
   (simple_wait_frame_drains_queue_first ok_env 5
      (enqueue_frame (enqueue_frame (fresh_state 131072 [ReadEvent.ok [3]])
        (toy_frame 6)) (toy_frame 8)) sentinel_frame).1 (toy_frame 6) [toy_frame 8]
      (by decide)⟩

/-! ## Return values of a publish -/

/-- C13: empty body. For every frame_max (any connection state), exchange,
routing key and properties, when every send succeeds amqp_basic_publish with an
empty body returns 0 and has emitted exactly the METHOD frame followed by the
HEADER frame with body_size 0, and no BODY frame. -/
theorem basic_publish_empty_body {κ : Type} (env : Env κ) (st : amqp_connection_state_t κ)
    (exchange routing_key : List Nat) (mandatory immediate : Nat)
    (properties : Option amqp_basic_properties_t) (hs : sends_succeed env) :
    ∀ fuel, 1 ≤ fuel →
      amqp_basic_publish env fuel st exchange routing_key mandatory immediate properties [] =
        (Res.ret 0, { st with sockfd_out := st.sockfd_out ++
          [publish_method_frame env exchange routing_key mandatory immediate,
           publish_header_frame env 0 properties] }) := by
  intro fuel hfuel
  obtain ⟨n, rfl⟩ : ∃ n, fuel = n + 1 := ⟨fuel - 1, by omega⟩
  unfold amqp_basic_publish
  simp only [amqp_send_method, amqp_send_frame]
  rw [if_neg (not_lt.mpr (hs _ _)), if_neg (not_lt.mpr (hs _ _))]
  rw [amqp_basic_publish_loop]
  have h0 : to_int (size_t_sub ([] : List Nat).length 0) = 0 := by decide
  simp only [h0, lt_self_iff_false, if_false, if_true]
  cases properties <;> simp [publish_method_frame, publish_header_frame]

/-- Witness of C13: frame_max = 8 and an empty body; one round of the loop is
enough. -/
theorem basic_publish_empty_body_witness :
    (∀ fuel, 1 ≤ fuel →
      amqp_basic_publish ok_env fuel (fresh_state 8 []) [1] [2] 0 0 none [] =
        (Res.ret 0, { (fresh_state 8 []) with sockfd_out := ((fresh_state 8 []).sockfd_out ++
          [publish_method_frame ok_env [1] [2] 0 0,
           publish_header_frame ok_env 0 none]) })) ∧
    amqp_basic_publish ok_env 1 (fresh_state 8 []) [1] [2] 0 0 none [] =
      (Res.ret 0, { (fresh_state 8 []) with sockfd_out :=
        [publish_method_frame ok_env [1] [2] 0 0, publish_header_frame ok_env 0 none] }) :=
  ⟨basic_publish_empty_body ok_env (fresh_state 8 []) [1] [2] 0 0 none ok_env_sends_succeed,
   by decide⟩

/-- C16: when sending the request fails with the negative status s,
amqp_simple_rpc returns reply_type LIBRARY_EXCEPTION, library_errno = -s and
an empty reply (id 0, decoded null); the connection state differs from the one
before the call only by the request logged as handed to the socket: no read,
no codec call, queue and inbound cursors unchanged. -/
theorem simple_rpc_send_failure {κ : Type} (env : Env κ) (fuel : Nat)
    (st : amqp_connection_state_t κ) (channel request_id expected_reply_id : Nat)
    (decoded_request_method : Decoded) (s : Int)
    (hstatus : (amqp_send_method env st channel request_id decoded_request_method).1 = s)
    (hneg : s < 0) :
    amqp_simple_rpc env fuel st channel request_id expected_reply_id decoded_request_method =
      (Res.ret
        { reply_type := AMQP_RESPONSE_LIBRARY_EXCEPTION
          reply := { id := 0, decoded := Decoded.null }
          library_errno := -s },
       { st with sockfd_out := (st.sockfd_out ++
          [request_frame env channel request_id decoded_request_method]) }) := by
  unfold amqp_simple_rpc
  unfold amqp_send_method amqp_send_frame at hstatus ⊢
  simp only at hstatus ⊢
  rw [hstatus, if_pos hneg]
  rfl

/-- Witness of C16: the send of CONNECTION.OPEN fails with -32 (EPIPE); the RPC
returns library_errno 32 and the pending read is not consumed. -/
theorem simple_rpc_send_failure_witness :
    (amqp_send_method failing_env (fresh_state 131072 [ReadEvent.ok [3]])
      0 0x000A0028 (Decoded.connection_open [47] [] 1)).1 = -32 ∧
    amqp_simple_rpc failing_env 5 (fresh_state 131072 [ReadEvent.ok [3]])
      0 0x000A0028 0x000A0029 (Decoded.connection_open [47] [] 1) =
      (Res.ret
        { reply_type := AMQP_RESPONSE_LIBRARY_EXCEPTION
          reply := { id := 0, decoded := Decoded.null }
          library_errno := -(-32) },
       { (fresh_state 131072 [ReadEvent.ok [3]]) with sockfd_out :=
          [request_frame failing_env 0 0x000A0028 (Decoded.connection_open [47] [] 1)] }) :=
  ⟨by decide,
   simple_rpc_send_failure failing_env 5 (fresh_state 131072 [ReadEvent.ok [3]])
    0 0x000A0028 0x000A0029 (Decoded.connection_open [47] [] 1) (-32) (by decide) (by decide)⟩

/-! ## Invariants -/

/-- C17: the sentinel frame_type 0 never surfaces. From a connection whose
queue holds `q` with no frame of type 0 (failing reads setting a positive
errno, as POSIX does): every frame wait_frame_inner returns with status 1 has
frame_type != 0; so has every frame amqp_simple_wait_frame returns with status
1; and after amqp_simple_rpc, whatever its outcome, the queue holds `q`
followed by the parked frames, none of type 0, and a reply that is not a
LIBRARY_EXCEPTION is the method of a received frame with frame_type != 0. -/
theorem sentinel_never_surfaces {κ : Type} (env : Env κ) (fuel : Nat)
    (st : amqp_connection_state_t κ) (q : List amqp_frame_t)
    (hpos : errnos_positive st.sockfd_in) (hq : queue_holds st q) (hns : no_sentinel q) :
    (∀ (fr f : amqp_frame_t) (st1 : amqp_connection_state_t κ),
      wait_frame_inner env fuel st fr = (Res.ret (1, f), st1) → f.frame_type ≠ 0) ∧
    (∀ (fr f : amqp_frame_t) (st1 : amqp_connection_state_t κ),
      amqp_simple_wait_frame env fuel st fr = (Res.ret (1, f), st1) → f.frame_type ≠ 0) ∧
    (∀ (channel request_id expected : Nat) (decoded : Decoded),
      ∃ parked,
        queue_holds (amqp_simple_rpc env fuel st channel request_id expected decoded).2
          (q ++ parked) ∧
        no_sentinel (q ++ parked) ∧
        errnos_positive
          (amqp_simple_rpc env fuel st channel request_id expected decoded).2.sockfd_in ∧
        ∀ rep, (amqp_simple_rpc env fuel st channel request_id expected decoded).1 = Res.ret rep →
          rep.reply_type ≠ AMQP_RESPONSE_LIBRARY_EXCEPTION →
          ∃ f, f.frame_type ≠ 0 ∧ awaited_reply env channel expected f ∧
            rep = reply_of expected f) := by
  have hinner : ∀ (fr f : amqp_frame_t) (st1 : amqp_connection_state_t κ),
      wait_frame_inner env fuel st fr = (Res.ret (1, f), st1) → f.frame_type ≠ 0 := by
    intro fr f st1 h
    rcases (wait_frame_inner_status env fuel st fr hpos).2 1 f (by rw [h]) with hle | ⟨_, hne⟩
    · omega
    · exact hne
  refine ⟨hinner, ?_, ?_⟩
  · intro fr f st1 h
    cases q with
    | nil =>
      rw [simple_wait_frame_empty env fuel st fr hq] at h
      exact hinner fr f st1 h
    | cons x rest =>
      obtain ⟨st2, h1, _⟩ := wait_frame_dequeue env fuel st fr x rest hq
      rw [h1] at h
      injection h with h _
      injection h with h
      injection h with _ h
      rw [← h]
      exact hns x (List.mem_cons_self _ _)
  · intro channel request_id expected decoded
    obtain ⟨parked, h1, h2⟩ := simple_rpc_inv env fuel st channel request_id expected decoded q hq
    obtain ⟨h3, h4, h5⟩ := h2 hpos
    refine ⟨parked, h1, ?_, h4, h5⟩
    intro f hf
    rcases List.mem_append.mp hf with hf | hf
    · exact hns f hf
    · exact h3 f hf

/-- Witness of C17: a heartbeat is queued, a spurious frame and the awaited
reply arrive; the RPC leaves a queue without a frame of type 0. -/
theorem sentinel_never_surfaces_witness :
    errnos_positive
      (enqueue_frame (fresh_state 131072 [ReadEvent.ok [6, 3], ReadEvent.fail 104])
        (toy_frame 8)).sockfd_in ∧
    queue_holds (enqueue_frame (fresh_state 131072 [ReadEvent.ok [6, 3], ReadEvent.fail 104])
      (toy_frame 8)) [toy_frame 8] ∧
    no_sentinel [toy_frame 8] ∧
    ∃ parked,
      queue_holds (amqp_simple_rpc ok_env 5
        (enqueue_frame (fresh_state 131072 [ReadEvent.ok [6, 3], ReadEvent.fail 104])
          (toy_frame 8)) 0 0x000A0028 0x000A0029 (Decoded.connection_open [47] [] 1)).2
        ([toy_frame 8] ++ parked) ∧
      no_sentinel ([toy_frame 8] ++ parked) ∧
      errnos_positive (amqp_simple_rpc ok_env 5
        (enqueue_frame (fresh_state 131072 [ReadEvent.ok [6, 3], ReadEvent.fail 104])
          (toy_frame 8)) 0 0x000A0028 0x000A0029
          (Decoded.connection_open [47] [] 1)).2.sockfd_in ∧
      ∀ rep, (amqp_simple_rpc ok_env 5
        (enqueue_frame (fresh_state 131072 [ReadEvent.ok [6, 3], ReadEvent.fail 104])
          (toy_frame 8)) 0 0x000A0028 0x000A0029 (Decoded.connection_open [47] [] 1)).1 =
          Res.ret rep →
        rep.reply_type ≠ AMQP_RESPONSE_LIBRARY_EXCEPTION →
        ∃ f, f.frame_type ≠ 0 ∧ awaited_reply ok_env 0 0x000A0029 f ∧
          rep = reply_of 0x000A0029 f :=
  have hpos : errnos_positive
      (enqueue_frame (fresh_state 131072 [ReadEvent.ok [6, 3], ReadEvent.fail 104])
        (toy_frame 8)).sockfd_in := by
    intro errno h
    simp [enqueue_frame, set_queue, fresh_state] at h
    omega
  have hns : no_sentinel [toy_frame 8] := by
    intro f hf
    rw [List.mem_singleton.mp hf]
    decide
  ⟨hpos, by decide, hns,
   (sentinel_never_surfaces ok_env 5 _ [toy_frame 8] hpos (by decide) hns).2.2
     0 0x000A0028 0x000A0029 (Decoded.connection_open [47] [] 1)⟩

/-- C18: the cursor invariant. If the codec never reports consuming more bytes
than the slice it was given and no read returns more bytes than the capacity
of the buffer, then from a state with 0 <= offset <= limit <= capacity one
iteration of wait_frame_inner (a codec call or a read, whether it returns or
continues) gives a state with the invariant, the same capacity and the same
bound on the coming reads; and for every fuel the state in which
wait_frame_inner stops (frame, EOF, error, or any other outcome) has the
invariant. -/
theorem cursor_invariant {κ : Type} (env : Env κ) (hc : codec_bounded env)
    (st : amqp_connection_state_t κ) (fr : amqp_frame_t)
    (hinv : cursor_inv st)
    (hr : reads_bounded st.sock_inbound_buffer.length st.sockfd_in) :
    (match wait_frame_step env st fr with
     | Sum.inl (_, st1) => cursor_inv st1 ∧
         st1.sock_inbound_buffer.length = st.sock_inbound_buffer.length ∧
         reads_bounded st1.sock_inbound_buffer.length st1.sockfd_in
     | Sum.inr (st1, _) => cursor_inv st1 ∧
         st1.sock_inbound_buffer.length = st.sock_inbound_buffer.length ∧
         reads_bounded st1.sock_inbound_buffer.length st1.sockfd_in) ∧
    ∀ fuel,
      cursor_inv (wait_frame_inner env fuel st fr).2 ∧
      (wait_frame_inner env fuel st fr).2.sock_inbound_buffer.length =
        st.sock_inbound_buffer.length ∧
      reads_bounded (wait_frame_inner env fuel st fr).2.sock_inbound_buffer.length
        (wait_frame_inner env fuel st fr).2.sockfd_in :=
  ⟨wait_frame_step_cursor env hc st fr hinv hr,
   fun fuel => wait_frame_inner_cursor env hc fuel st fr hinv hr⟩

/-- Witness of C18: two bytes that decode to no frame are read into the 8-byte
buffer, then the stream ends; the reader returns 0 and the cursors satisfy the
invariant. -/
theorem cursor_invariant_witness :
    codec_bounded ok_env ∧
    cursor_inv (fresh_state 131072 [ReadEvent.ok [11, 12], ReadEvent.ok []]) ∧
    reads_bounded
      (fresh_state 131072 [ReadEvent.ok [11, 12], ReadEvent.ok []]).sock_inbound_buffer.length
      (fresh_state 131072 [ReadEvent.ok [11, 12], ReadEvent.ok []]).sockfd_in ∧
    (wait_frame_inner ok_env 5 (fresh_state 131072 [ReadEvent.ok [11, 12], ReadEvent.ok []])
      sentinel_frame).1 = Res.ret (0, sentinel_frame) ∧
    cursor_inv (wait_frame_inner ok_env 5
      (fresh_state 131072 [ReadEvent.ok [11, 12], ReadEvent.ok []]) sentinel_frame).2 :=
  have hinv : cursor_inv (fresh_state 131072 [ReadEvent.ok [11, 12], ReadEvent.ok []]) := by
    unfold cursor_inv
    decide
  have hr : reads_bounded
      (fresh_state 131072 [ReadEvent.ok [11, 12], ReadEvent.ok []]).sock_inbound_buffer.length
      (fresh_state 131072 [ReadEvent.ok [11, 12], ReadEvent.ok []]).sockfd_in := by
    intro bytes h
    simp [fresh_state] at h
    rcases h with rfl | rfl <;> decide
  ⟨ok_env_codec_bounded, hinv, hr, by decide,
   ((cursor_invariant ok_env ok_env_codec_bounded _ sentinel_frame hinv hr).2 5).1⟩

/-- C19: queue well-formedness is preserved. A connection whose queue holds the
frames `q` is well formed (first null implies last null; otherwise last is the
final record reached from first and its next is null). The dequeue of
amqp_simple_wait_frame leaves a well-formed queue holding the tail of `q`, the
enqueue of amqp_simple_rpc leaves a well-formed queue holding `q` followed by
the new frame, and a whole amqp_simple_rpc, whatever its outcome, leaves a
well-formed queue holding `q` followed by the frames it parked: no record
queued before is lost or detached. -/
theorem queue_well_formedness_preserved {κ : Type} (env : Env κ)
    (st : amqp_connection_state_t κ) (q : List amqp_frame_t) (hq : queue_holds st q) :
    queue_well_formed st ∧
    (∀ (fuel : Nat) (fr : amqp_frame_t),
      queue_holds (amqp_simple_wait_frame env fuel st fr).2 q.tail ∧
      queue_well_formed (amqp_simple_wait_frame env fuel st fr).2) ∧
    (∀ f : amqp_frame_t,
      queue_holds (enqueue_frame st f) (q ++ [f]) ∧ queue_well_formed (enqueue_frame st f)) ∧
    (∀ (fuel channel request_id expected : Nat) (decoded : Decoded),
      ∃ parked,
        queue_holds (amqp_simple_rpc env fuel st channel request_id expected decoded).2
          (q ++ parked) ∧
        queue_well_formed (amqp_simple_rpc env fuel st channel request_id expected decoded).2) := by
  refine ⟨queue_holds_well_formed st q hq, ?_, ?_, ?_⟩
  · intro fuel fr
    have h := simple_wait_frame_queue env fuel st fr q hq
    exact ⟨h, queue_holds_well_formed _ _ h⟩
  · intro f
    have h := queue_holds_enqueue st q f hq
    exact ⟨h, queue_holds_well_formed _ _ h⟩
  · intro fuel channel request_id expected decoded
    obtain ⟨parked, h, _⟩ := simple_rpc_inv env fuel st channel request_id expected decoded q hq
    exact ⟨parked, h, queue_holds_well_formed _ _ h⟩

/-- Witness of C19: a second frame is enqueued behind a queued heartbeat. -/
theorem queue_well_formedness_preserved_witness :
    queue_holds (enqueue_frame (fresh_state 131072 [ReadEvent.ok [6, 3]]) (toy_frame 8))
      [toy_frame 8] ∧
    queue_holds (enqueue_frame (enqueue_frame (fresh_state 131072 [ReadEvent.ok [6, 3]])
      (toy_frame 8)) (toy_frame 5)) ([toy_frame 8] ++ [toy_frame 5]) ∧
    queue_well_formed (enqueue_frame (enqueue_frame (fresh_state 131072 [ReadEvent.ok [6, 3]])
      (toy_frame 8)) (toy_frame 5)) :=
  ⟨by decide,
   (queue_well_formedness_preserved ok_env
      (enqueue_frame (fresh_state 131072 [ReadEvent.ok [6, 3]]) (toy_frame 8))
      [toy_frame 8] (by decide)).2.2.1 (toy_frame 5)⟩

/-! ## Termination of the BODY loop -/

/-- C20: termination of the BODY loop. With succeeding sends and a body of
length 0 < |B| < 2^31, for a usable payload size u: when u >= 1 each iteration
at body_offset < |B| sends one BODY frame and moves body_offset strictly
forward to at most |B|, at body_offset = |B| the loop returns 0, and from
offset 0 the loop returns 0 within |B| + 1 rounds; when u = 0 each iteration
sends an empty BODY frame and leaves body_offset unchanged, and the loop
returns for no number of rounds. So the loop terminates if and only if
u != 0, and u = 0 is frame_max = HEADER_SIZE + FOOTER_SIZE. -/
theorem body_loop_termination {κ : Type} (env : Env κ) (hs : sends_succeed env) (B : List Nat)
    (hpos : 0 < B.length) (hB : B.length < 2 ^ 31) (u : Nat)
    (st0 : amqp_connection_state_t κ) :
    (1 ≤ u →
      (∀ (off fuel : Nat) (st : amqp_connection_state_t κ), off < B.length →
        amqp_basic_publish_loop env (fuel + 1) st B u off =
          amqp_basic_publish_loop env fuel
            (sent st (body_fragment_frame env ((B.drop off).take (min u (B.length - off)))))
            B u (off + min u (B.length - off)) ∧
        off < off + min u (B.length - off) ∧ off + min u (B.length - off) ≤ B.length) ∧
      (∀ (fuel : Nat) (st : amqp_connection_state_t κ),
        amqp_basic_publish_loop env (fuel + 1) st B u B.length = (Res.ret 0, st)) ∧
      (∀ (fuel : Nat) (st : amqp_connection_state_t κ), B.length < fuel →
        (amqp_basic_publish_loop env fuel st B u 0).1 = Res.ret 0)) ∧
    (u = 0 →
      (∀ (off fuel : Nat) (st : amqp_connection_state_t κ), off < B.length →
        amqp_basic_publish_loop env (fuel + 1) st B u off =
          amqp_basic_publish_loop env fuel (sent st (body_fragment_frame env [])) B u off) ∧
      (∀ (fuel : Nat) (st : amqp_connection_state_t κ),
        (amqp_basic_publish_loop env fuel st B u 0).1 = Res.out_of_fuel)) ∧
    ((∃ (fuel : Nat) (r : Int), (amqp_basic_publish_loop env fuel st0 B u 0).1 = Res.ret r) ↔
      u ≠ 0) ∧
    uint32_sub (HEADER_SIZE + FOOTER_SIZE) (HEADER_SIZE + FOOTER_SIZE) = 0 := by
  have hterm : 1 ≤ u → ∀ (fuel : Nat) (st : amqp_connection_state_t κ), B.length < fuel →
      (amqp_basic_publish_loop env fuel st B u 0).1 = Res.ret 0 := by
    intro hu fuel st hfuel
    rw [publish_loop_ok env hs B u hu hB B.length 0 st fuel (by omega) (by omega) hfuel]
  refine ⟨?_, ?_, ?_, by decide⟩
  · intro hu
    refine ⟨?_, ?_, hterm hu⟩
    · intro off fuel st hoff
      refine ⟨?_, by omega, by omega⟩
      rw [publish_loop_step env B hB u off hoff, if_neg (not_lt.mpr (hs _ _))]
    · intro fuel st
      exact publish_loop_done env B hB u fuel st
  · intro hu
    subst hu
    refine ⟨?_, ?_⟩
    · intro off fuel st hoff
      rw [publish_loop_step env B hB 0 off hoff, if_neg (not_lt.mpr (hs _ _))]
      simp
    · intro fuel st
      exact publish_loop_stuck env hs B hB 0 hpos fuel st
  · constructor
    · rintro ⟨fuel, r, h⟩ hu
      subst hu
      rw [publish_loop_stuck env hs B hB 0 hpos fuel st0] at h
      cases h
    · intro hu
      exact ⟨B.length + 1, 0, hterm (by omega) _ st0 (by omega)⟩

/-- Witness of C20: a 3-byte body terminates with usable size 2 and does not
terminate with usable size 0. -/
theorem body_loop_termination_witness :
    ((∃ (fuel : Nat) (r : Int),
        (amqp_basic_publish_loop ok_env fuel (fresh_state 10 []) [1, 2, 3] 2 0).1 = Res.ret r) ↔
      2 ≠ 0) ∧
    ((∃ (fuel : Nat) (r : Int),
        (amqp_basic_publish_loop ok_env fuel (fresh_state 8 []) [1, 2, 3] 0 0).1 = Res.ret r) ↔
      0 ≠ 0) ∧
    (amqp_basic_publish_loop ok_env 4 (fresh_state 10 []) [1, 2, 3] 2 0).1 = Res.ret 0 :=
  ⟨(body_loop_termination ok_env ok_env_sends_succeed [1, 2, 3] (by decide) (by decide) 2
      (fresh_state 10 [])).2.2.1,
   (body_loop_termination ok_env ok_env_sends_succeed [1, 2, 3] (by decide) (by decide) 0
      (fresh_state 8 [])).2.2.1,
   by decide⟩

end AmqpSocket
